import Mathlib

/-!
# MiniPixel Animator Studio: frame store, animation sequence and edit session

A shallow embedding of `script.js`.  The mutable globals of the script become the
fields of `Session`; every event handler becomes a function `Session → Session`.
DOM rendering (pixel colours on screen, canvas drawing) is left out, except for the
list of thumbnails in `framesList`, whose click handlers feed indices back into the
session, and the swatches of the palette, which `addCustomColor` reads.  Playback is a
step machine on `Player`: the session, the timers of the page and the closures of the
calls of `playAnimation`; a reveal tick returns the grid write it makes.

Conventions.
* JavaScript numbers that are used as array indices are natural numbers; the
  result of `parseInt` is a mathematical integer (exact for every input below
  `2^53`).
* A JavaScript exception ends the running handler and keeps the writes made so far.
-/

namespace MiniPixel

/-! ## Data model -/

/-- A cell of a pixel array: a CSS colour string, or `none` for an array hole
(`undefined`). -/
abbrev Pixel := Option String

/-- One frame: the array of pixel colours. -/
abbrev Frame := List Pixel

/-- The colour `'#ffffff'`. -/
def white : Pixel := some "#ffffff"

/-- The array `Array(256).fill('#ffffff')`. -/
def blankFrame : Frame := List.replicate 256 white

/-- The globals of `script.js` (lines 5-12), with `framesList` holding the frame index
captured by each thumbnail canvas, in document order. -/
structure Session where
  selectedColor : String
  currentFrame : Frame
  frames : List Frame
  isPlaying : Bool
  hiddenFrameExists : Bool
  visibleFrameIndex : Nat
  animationFramesIndices : List Nat
  framesList : List Nat
deriving DecidableEq, Repr

/-! ## JavaScript array primitives -/

/-- The call `xs.splice(start, deleteCount, ...items)` for non-negative arguments:
the resulting content of `xs`. -/
def splice {α : Type} (xs : List α) (start deleteCount : Nat) (items : List α) : List α :=
  xs.take start ++ items ++ xs.drop (start + deleteCount)

/-- The assignment `xs[i] = v`: overwrites inside the array, pads with holes beyond
its end. -/
def assignAt (xs : Frame) (i : Nat) (v : Pixel) : Frame :=
  if i < xs.length then xs.set i v
  else xs ++ List.replicate (i - xs.length) none ++ [v]

/-- The call `xs.sort((a, b) => a - b)`: stable ascending numeric sort. -/
def sortAscending (xs : List Nat) : List Nat :=
  xs.insertionSort (fun a b => a ≤ b)

/-! ## `parseInt(text, 10)` -/

/-- The white space and line terminator characters skipped by `parseInt`. -/
def isStrWhiteSpaceChar (c : Char) : Bool :=
  [0x09, 0x0A, 0x0B, 0x0C, 0x0D, 0x20, 0xA0, 0x1680, 0x2028, 0x2029, 0x202F, 0x205F,
    0x3000, 0xFEFF].contains c.toNat
  || (0x2000 ≤ c.toNat && c.toNat ≤ 0x200A)

/-- The value of a run of decimal digits. -/
def digitsValue (ds : List Char) : Nat :=
  ds.foldl (fun acc c => 10 * acc + (c.toNat - 48)) 0

/-- The call `parseInt(text, 10)`: skip leading white space, read an optional sign, read
the longest run of decimal digits; `none` is `NaN` (no digit was read). -/
def parseInt (text : String) : Option Int :=
  let s := text.toList.dropWhile isStrWhiteSpaceChar
  let signed : Bool × List Char :=
    match s with
    | '-' :: rest => (true, rest)
    | '+' :: rest => (false, rest)
    | _ => (false, s)
  let z := signed.2.takeWhile Char.isDigit
  if z.isEmpty then none
  else some (if signed.1 then -(digitsValue z : Int) else (digitsValue z : Int))

/-- What `parseInt` sees of the answer of `prompt`: the typed text, or the string
`"null"` when the dialog is cancelled. -/
def promptText (answer : Option String) : String :=
  answer.getD "null"

/-! ## Session initialisation -/

/-- The globals as declared, after the grid loop of lines 15-29 has pushed 256 white
pixels to `currentFrame`. -/
def pageLoad : Session :=
  { selectedColor := "#000000"
    currentFrame := List.replicate 256 white
    frames := []
    isPlaying := false
    hiddenFrameExists := true
    visibleFrameIndex := 0
    animationFramesIndices := [0, 1]
    framesList := [] }

/-- The function `loadFrameToGrid(frameIndex)`: copies the frame into `currentFrame`;
spreading an undefined frame throws and leaves the session as it is. -/
def loadFrameToGrid (frameIndex : Nat) (s : Session) : Session :=
  match s.frames[frameIndex]? with
  | some f => { s with currentFrame := f }
  | none => s

/-- The thumbnails built by calling `addThumbnail` on each index of `idxs` in turn:
`addThumbnail(i)` reads `frames[i][0]` and throws on an undefined frame, so the
thumbnails appended are those before the first undefined frame. -/
def thumbnailsAdded (frames : List Frame) (idxs : List Nat) : List Nat :=
  idxs.takeWhile (fun i => decide (i < frames.length))

/-- Whether a loop calling `addThumbnail` over `idxs` runs to its end. -/
def thumbnailsComplete (frames : List Frame) (idxs : List Nat) : Bool :=
  idxs.all (fun i => decide (i < frames.length))

/-- The function `initFrames()` (lines 103-118). -/
def initFrames (s : Session) : Session :=
  let frames := [blankFrame, blankFrame]
  loadFrameToGrid 0
    { s with
      frames := frames
      animationFramesIndices := [0, 1]
      hiddenFrameExists := true
      visibleFrameIndex := 0
      framesList := thumbnailsAdded frames [0] }

/-- The session after the script has loaded (line 120). -/
def start : Session := initFrames pageLoad

/-! ## Frame operations -/

/-- The function `addFrame()` (lines 185-202). -/
def addFrame (s : Session) : Session :=
  let frames1 := if s.hiddenFrameExists then splice s.frames 1 1 [] else s.frames
  let indices1 :=
    if s.hiddenFrameExists then s.animationFramesIndices.filter (fun i => i ≠ 1)
    else s.animationFramesIndices
  let frames2 := frames1 ++ [blankFrame]
  let newIndex := frames2.length - 1
  let indices2 := indices1 ++ [newIndex]
  let s1 : Session :=
    { s with
      frames := frames2
      hiddenFrameExists := false
      animationFramesIndices := indices2
      framesList := thumbnailsAdded frames2 indices2 }
  if thumbnailsComplete frames2 indices2 then
    loadFrameToGrid newIndex { s1 with visibleFrameIndex := newIndex }
  else s1

/-- Lines 219-228 of `deleteFrame`: remove the frame at `frameIndex`, drop it from the
sequence, shift the later indices down, adjust the visible index. -/
def removeFrame (frameIndex : Nat) (s : Session) : Session :=
  { s with
    frames := splice s.frames frameIndex 1 []
    animationFramesIndices :=
      (s.animationFramesIndices.filter (fun i => i ≠ frameIndex)).map
        (fun i => if i > frameIndex then i - 1 else i)
    visibleFrameIndex :=
      if s.visibleFrameIndex = frameIndex then 0
      else if s.visibleFrameIndex > frameIndex then s.visibleFrameIndex - 1
      else s.visibleFrameIndex }

/-- Lines 230-237 of `deleteFrame`: put the hidden frame back at index 1 when a single
sequence entry is left and no hidden frame exists. -/
def restoreHiddenFrame (s : Session) : Session :=
  if s.animationFramesIndices.length = 1 ∧ s.hiddenFrameExists = false then
    { s with
      frames := splice s.frames 1 0 [blankFrame]
      animationFramesIndices := sortAscending (s.animationFramesIndices ++ [1])
      hiddenFrameExists := true }
  else s

/-- Lines 239-247 of `deleteFrame`: rebuild the thumbnails, skipping index 1 while the
hidden frame exists, then reload the visible frame. -/
def refreshAfterDelete (s : Session) : Session :=
  let shown := s.animationFramesIndices.filter (fun i => !(s.hiddenFrameExists && i == 1))
  let s1 : Session := { s with framesList := thumbnailsAdded s.frames shown }
  if thumbnailsComplete s.frames shown then loadFrameToGrid s1.visibleFrameIndex s1
  else s1

/-- The function `deleteFrame()` (lines 205-248); `answer` is what `prompt` returns. -/
def deleteFrame (answer : Option String) (s : Session) : Session :=
  if s.frames.length ≤ 1 then s
  else
    match parseInt (promptText answer) with
    | none => s
    | some frameNum =>
      let frameIndex : Int := frameNum - 1
      if frameIndex < 0 ∨ frameIndex ≥ (s.frames.length : Int) then s
      else refreshAfterDelete (restoreHiddenFrame (removeFrame frameIndex.toNat s))

/-! ## Editing -/

/-- The click handler of grid pixel `i` (lines 20-26).  Writing into an undefined
frame throws after `currentFrame` has been updated. -/
def pixelClick (i : Nat) (s : Session) : Session :=
  if s.isPlaying then s
  else
    let s1 : Session :=
      { s with currentFrame := assignAt s.currentFrame i (some s.selectedColor) }
    match s.frames[s.visibleFrameIndex]? with
    | some f =>
      { s1 with
        frames := s.frames.set s.visibleFrameIndex (assignAt f i (some s.selectedColor)) }
    | none => s1

/-- The click handler of the `j`-th thumbnail of `framesList` (lines 152-155). -/
def thumbnailClick (j : Nat) (s : Session) : Session :=
  match s.framesList[j]? with
  | some frameIndex => loadFrameToGrid frameIndex { s with visibleFrameIndex := frameIndex }
  | none => s

/-- The click handler of a colour swatch (line 42). -/
def swatchClick (color : String) (s : Session) : Session :=
  { s with selectedColor := color }

/-! ## Playback parameters -/

/-- The frame duration computed at lines 256-257 from the text of the duration
input. -/
def duration (value : String) : Int :=
  match parseInt value with
  | none => 500
  | some d => if d < 100 then 500 else d

/-- The per-pixel interval `duration / 256` passed to `setInterval`. -/
def pixelInterval (value : String) : ℚ :=
  (duration value : ℚ) / 256

/-! ## Reachable sessions -/

/-- The only writes to `isPlaying`: `playAnimation()` sets it (line 253) and
`stopAnimation()` clears it (line 295); their timers repaint the grid only. -/
def setPlaying (b : Bool) (s : Session) : Session :=
  { s with isPlaying := b }

/-- The sessions reachable from the loaded page by the user actions: add a frame,
delete a frame (with any answer to the prompt), click one of the 256 grid pixels,
click a listed thumbnail, pick a colour, start or stop playback. -/
inductive Reachable : Session → Prop
  | start : Reachable start
  | addFrame {s : Session} : Reachable s → Reachable (addFrame s)
  | deleteFrame {s : Session} (answer : Option String) :
      Reachable s → Reachable (deleteFrame answer s)
  | pixelClick {s : Session} (i : Nat) : i < 256 → Reachable s → Reachable (pixelClick i s)
  | thumbnailClick {s : Session} (j : Nat) : Reachable s → Reachable (thumbnailClick j s)
  | swatchClick {s : Session} (color : String) : Reachable s → Reachable (swatchClick color s)
  | setPlaying {s : Session} (b : Bool) : Reachable s → Reachable (setPlaying b s)

/-- The test of line 242: index `i` is the hidden frame. -/
def isHiddenIndex (s : Session) (i : Nat) : Bool :=
  s.hiddenFrameExists && i == 1

/-- The frames of the store that the script does not treat as the hidden frame. -/
def realFrames (s : Session) : List Frame :=
  if s.hiddenFrameExists then s.frames.eraseIdx 1 else s.frames

/-- The number of store indices that the script does not treat as the hidden frame. -/
def realFrameCount (s : Session) : Nat :=
  ((List.range s.frames.length).filter (fun i => !isHiddenIndex s i)).length

/-- The index-shift rule in the words of the specification: an index equal to the
deleted one is dropped, a smaller one is kept, a larger one moves down by one. -/
def shiftIndex (k i : Nat) : Option Nat :=
  if i = k then none else if i < k then some i else some (i - 1)

/-- The specification's remapped sequence: every entry goes through `shiftIndex`, in
order. -/
def shiftedSequence (k : Nat) (indices : List Nat) : List Nat :=
  indices.filterMap (shiftIndex k)

/-- The part of the invariant that holds between the phases of `deleteFrame`. -/
structure CoreInv (s : Session) : Prop where
  frames_pos : 1 ≤ s.frames.length
  indices_eq : s.animationFramesIndices = List.range s.frames.length
  visible_lt : s.visibleFrameIndex < s.frames.length
  hidden_le : s.hiddenFrameExists = true → s.frames.length ≤ 2
  frame_len : ∀ f ∈ s.frames, f.length = 256

/-- The invariant of the reachable sessions. -/
structure Inv (s : Session) extends CoreInv s : Prop where
  thumbs_lt : ∀ t ∈ s.framesList, t < s.frames.length
  shown_ge : s.hiddenFrameExists = false → 2 ≤ s.frames.length

/-- While the hidden frame is stored at index 1 it is blank, it is not the visible
frame and it has no thumbnail. -/
def HiddenBlank (s : Session) : Prop :=
  s.hiddenFrameExists = true → s.frames.length = 2 →
    s.frames[1]? = some blankFrame ∧ s.visibleFrameIndex = 0 ∧ 1 ∉ s.framesList

/-! ## `hexToRgb` -/

/-- The UTF-16 code units of a string: JavaScript measures and splits strings by code
unit. -/
def codeUnits (text : String) : List Nat :=
  text.toList.flatMap fun c =>
    if c.toNat < 0x10000 then [c.toNat]
    else [0xD800 + (c.toNat - 0x10000) / 0x400, 0xDC00 + (c.toNat - 0x10000) % 0x400]

/-- The white space and line terminator code units skipped by `parseInt`. -/
def isWhiteSpaceUnit (u : Nat) : Bool :=
  [0x09, 0x0A, 0x0B, 0x0C, 0x0D, 0x20, 0xA0, 0x1680, 0x2028, 0x2029, 0x202F, 0x205F,
    0x3000, 0xFEFF].contains u
  || (0x2000 ≤ u && u ≤ 0x200A)

/-- The value of a hexadecimal digit code unit (`0-9`, `a-f`, `A-F`). -/
def hexDigitValue (u : Nat) : Option Nat :=
  if 48 ≤ u ∧ u ≤ 57 then some (u - 48)
  else if 97 ≤ u ∧ u ≤ 102 then some (u - 87)
  else if 65 ≤ u ∧ u ≤ 70 then some (u - 55)
  else none

/-- The value of a run of hexadecimal digits. -/
def hexValue (ds : List Nat) : Nat :=
  ds.foldl (fun acc u => 16 * acc + (hexDigitValue u).getD 0) 0

/-- The call `parseInt(text, 16)` on code units: skip leading white space, read an
optional sign (`-` is 45, `+` is 43), skip an optional `0x` or `0X`, read the longest
run of hexadecimal digits; `none` is `NaN`.  The result is an exact integer (JavaScript
rounds above `2^53`). -/
def parseInt16 (units : List Nat) : Option Int :=
  let s := units.dropWhile isWhiteSpaceUnit
  let signed : Bool × List Nat :=
    match s with
    | u :: rest => if u = 45 then (true, rest) else if u = 43 then (false, rest) else (false, s)
    | [] => (false, s)
  let body : List Nat :=
    match signed.2 with
    | u :: v :: rest => if u = 48 ∧ (v = 120 ∨ v = 88) then rest else signed.2
    | other => other
  let z := body.takeWhile (fun u => (hexDigitValue u).isSome)
  if z.isEmpty then none
  else some (if signed.1 then -(hexValue z : Int) else (hexValue z : Int))

/-- The conversion `ToInt32` applied by the bitwise operators; `NaN` becomes 0. -/
def toInt32 (x : Option Int) : Int :=
  match x with
  | none => 0
  | some n =>
    let m := n % 4294967296
    if m ≥ 2147483648 then m - 4294967296 else m

/-- The expression `(x >> k) & 255` on a 32-bit integer: arithmetic shift, then the low
eight bits. -/
def shiftAndMask (x : Int) (k : Nat) : Nat :=
  ((x / (2 : Int) ^ k) % 256).toNat

/-- The code units that `hexToRgb` hands to `parseInt` (lines 90-94): a leading `#`
(code unit 35) is removed, and a string of three code units has each unit doubled. -/
def hexUnits (hex : String) : List Nat :=
  let u := codeUnits hex
  let stripped := match u with
    | c :: rest => if c = 35 then rest else u
    | [] => u
  if stripped.length = 3 then stripped.flatMap (fun c => [c, c]) else stripped

/-- The template string of line 99. -/
def rgbString (r g b : Nat) : String :=
  "rgb(" ++ toString r ++ ", " ++ toString g ++ ", " ++ toString b ++ ")"

/-- The function `hexToRgb(hex)` (lines 89-100). -/
def hexToRgb (hex : String) : String :=
  let bigint := toInt32 (parseInt16 (hexUnits hex))
  let r := shiftAndMask bigint 16
  let g := shiftAndMask bigint 8
  let b := shiftAndMask bigint 0
  rgbString r g b

/-! ## Palette -/

/-- A swatch of the palette: the colour captured by its click handler, the value read
back from `style.backgroundColor`, and whether it carries the class `selected`. -/
structure Swatch where
  color : String
  backgroundColor : String
  selected : Bool
deriving DecidableEq, Repr

/-- The constant `defaultColors` (line 32). -/
def defaultColors : List String :=
  ["#000000", "#ffffff", "#e9760a", "#ff0000", "#00ff00", "#0000ff", "#ffff00", "#00ffff",
    "#ff00ff", "#888888"]

/-- The constant `customColorsStartIndex` (line 33). -/
def customColorsStartIndex : Nat := defaultColors.length

/-- The function `createColorSwatch(color)` (lines 37-48).  The browser decides what
`style.backgroundColor` reads back after the assignment; that serialisation is the
parameter `styleColor`. -/
def createColorSwatch (styleColor : String → String) (color : String) : Swatch :=
  { color := color, backgroundColor := styleColor color, selected := false }

/-- The palette after lines 34 and 56: one swatch per default colour, the first one
selected. -/
def defaultPalette (styleColor : String → String) : List Swatch :=
  match defaultColors.map (createColorSwatch styleColor) with
  | [] => []
  | first :: rest => { first with selected := true } :: rest

/-- The call `palette.insertBefore(swatch, insertBeforeNode)` of lines 75-80. -/
def insertSwatch (palette : List Swatch) (swatch : Swatch) : List Swatch :=
  if palette.length > customColorsStartIndex then
    palette.take customColorsStartIndex ++ [swatch] ++ palette.drop customColorsStartIndex
  else palette ++ [swatch]

/-- The function `addCustomColor(hexColor)` (lines 64-86), on the palette and the
session.  Taking the class `selected` off every swatch and putting it on the new one
(lines 84-85) does not depend on where the new swatch was inserted, so the classes are
set before the insertion here. -/
def addCustomColor (styleColor : String → String) (hexColor : String)
    (st : List Swatch × Session) : List Swatch × Session :=
  let rgb := hexToRgb hexColor
  let alreadyExists := st.1.any (fun swatch => swatch.backgroundColor == rgb)
  if alreadyExists then st
  else
    let swatch := createColorSwatch styleColor hexColor
    let cleared := st.1.map (fun el => { el with selected := false })
    (insertSwatch cleared { swatch with selected := true },
      { st.2 with selectedColor := hexColor })

/-! ## Playback -/

/-- The variables captured by the closure `fillNextPixel` of one call of
`playAnimation` (lines 256-260). -/
structure Cursor where
  duration : Int
  frameIdxInArray : Nat
  pixelIndex : Nat
deriving DecidableEq, Repr

/-- An active timer of the page: its handle and the call of `playAnimation` (a position
in `calls`) whose closure it runs. -/
structure Timer where
  handle : Nat
  call : Nat
deriving DecidableEq, Repr

/-- The session together with the playback machinery: the global `playInterval`
(`none` is `null`), the closures of the calls of `playAnimation` made so far, the armed
`setInterval` timers and the pending `setTimeout` timers.  The browser hands out fresh
positive handles; `nextHandle` is the next one. -/
structure Player where
  session : Session
  playInterval : Option Nat
  nextHandle : Nat
  calls : List Cursor
  intervals : List Timer
  timeouts : List Timer
deriving DecidableEq, Repr

/-- One write `grid.children[cell].style.backgroundColor = value` of a reveal tick. -/
abbrev GridWrite := Nat × Pixel

/-- The page after the script has loaded: no timer, `playInterval` is `null`. -/
def loadedPage : Player :=
  { session := start
    playInterval := none
    nextHandle := 1
    calls := []
    intervals := []
    timeouts := [] }

/-- The call `clearInterval(handle)`: the timer with that handle, if any, is removed
from the active timers of the page. -/
def clearInterval (handle : Option Nat) (p : Player) : Player :=
  match handle with
  | none => p
  | some h =>
    { p with
      intervals := p.intervals.filter (fun t => t.handle ≠ h)
      timeouts := p.timeouts.filter (fun t => t.handle ≠ h) }

/-- The assignment `playInterval = setInterval(fillNextPixel, duration / 256)` made by
the closure of call `call`. -/
def armInterval (call : Nat) (p : Player) : Player :=
  { p with
    playInterval := some p.nextHandle
    intervals := p.intervals ++ [{ handle := p.nextHandle, call := call }]
    nextHandle := p.nextHandle + 1 }

/-- The function `playAnimation()` (lines 251-290); `value` is the text of the duration
input. -/
def playAnimation (value : String) (p : Player) : Player :=
  if p.session.isPlaying then p
  else
    let p1 : Player :=
      { p with
        session := { p.session with isPlaying := true }
        calls := p.calls ++ [{ duration := duration value, frameIdxInArray := 0, pixelIndex := 0 }] }
    armInterval p.calls.length (clearInterval p1.playInterval p1)

/-- The function `stopAnimation()` (lines 293-296). -/
def stopAnimation (p : Player) : Player :=
  let p1 := clearInterval p.playInterval p
  { p1 with session := { p1.session with isPlaying := false } }

/-- The closure `fillNextPixel` of call `call` (lines 265-286), with the grid write it
makes.  Reading a pixel of an undefined frame, or the style of a grid cell that does
not exist, throws before anything is written. -/
def fillNextPixel (call : Nat) (p : Player) : Player × Option GridWrite :=
  if p.session.isPlaying = false then (p, none)
  else
    match p.calls[call]? with
    | none => (p, none)
    | some cur =>
      match p.session.animationFramesIndices[cur.frameIdxInArray]? with
      | none => (p, none)
      | some frameIndex =>
        match p.session.frames[frameIndex]? with
        | none => (p, none)
        | some frame =>
          if cur.pixelIndex ≥ 256 then (p, none)
          else
            let write : GridWrite := (cur.pixelIndex, (frame[cur.pixelIndex]?).join)
            if cur.pixelIndex + 1 ≥ frame.length then
              let next : Cursor :=
                { cur with
                  pixelIndex := 0
                  frameIdxInArray :=
                    (cur.frameIdxInArray + 1) % p.session.animationFramesIndices.length }
              let p1 := clearInterval p.playInterval { p with calls := p.calls.set call next }
              ({ p1 with
                  timeouts := p1.timeouts ++ [{ handle := p1.nextHandle, call := call }]
                  nextHandle := p1.nextHandle + 1 },
                some write)
            else
              ({ p with calls := p.calls.set call { cur with pixelIndex := cur.pixelIndex + 1 } },
                some write)

/-- The armed interval with handle `handle` fires. -/
def intervalTick (handle : Nat) (p : Player) : Player × Option GridWrite :=
  match p.intervals.find? (fun t => t.handle = handle) with
  | some t => fillNextPixel t.call p
  | none => (p, none)

/-- The pending hold timeout with handle `handle` fires (lines 279-284): it leaves the
pending timers and re-arms the interval of its closure if the animation is playing. -/
def timeoutFire (handle : Nat) (p : Player) : Player :=
  match p.timeouts.find? (fun t => t.handle = handle) with
  | some t =>
    let p1 : Player := { p with timeouts := p.timeouts.filter (fun u => u.handle ≠ handle) }
    if p1.session.isPlaying then armInterval t.call p1 else p1
  | none => p

/-- A handler of the editor runs on the session; the timers are untouched. -/
def edit (f : Session → Session) (p : Player) : Player :=
  { p with session := f p.session }

/-- The pages reachable from the loaded page: the two playback buttons, the firing of
an armed interval or of a pending hold timeout, and the handlers of the editor. -/
inductive PlayerReachable : Player → Prop
  | loaded : PlayerReachable loadedPage
  | playAnimation {p : Player} (value : String) :
      PlayerReachable p → PlayerReachable (playAnimation value p)
  | stopAnimation {p : Player} : PlayerReachable p → PlayerReachable (stopAnimation p)
  | intervalTick {p : Player} (handle : Nat) :
      PlayerReachable p → PlayerReachable (intervalTick handle p).1
  | timeoutFire {p : Player} (handle : Nat) :
      PlayerReachable p → PlayerReachable (timeoutFire handle p)
  | addFrame {p : Player} : PlayerReachable p → PlayerReachable (edit addFrame p)
  | deleteFrame {p : Player} (answer : Option String) :
      PlayerReachable p → PlayerReachable (edit (deleteFrame answer) p)
  | pixelClick {p : Player} (i : Nat) :
      i < 256 → PlayerReachable p → PlayerReachable (edit (pixelClick i) p)
  | thumbnailClick {p : Player} (j : Nat) :
      PlayerReachable p → PlayerReachable (edit (thumbnailClick j) p)
  | swatchClick {p : Player} (color : String) :
      PlayerReachable p → PlayerReachable (edit (swatchClick color) p)

/-- The hold timeout of the running chain fires if no interval is armed. -/
def resumeHold (p : Player) : Player :=
  match p.intervals, p.timeouts with
  | [], t :: _ => timeoutFire t.handle p
  | _, _ => p

/-- The next reveal tick of the running chain: the pending hold, if any, fires first,
then the armed interval fires once. -/
def revealTick (p : Player) : Player × Option GridWrite :=
  match (resumeHold p).intervals with
  | t :: _ => intervalTick t.handle (resumeHold p)
  | [] => (resumeHold p, none)

/-- The page after `n` reveal ticks. -/
def revealTicks : Nat → Player → Player
  | 0, p => p
  | n + 1, p => (revealTick (revealTicks n p)).1

/-- The grid write of reveal tick number `n` (counted from 0). -/
def revealWrite (n : Nat) (p : Player) : Option GridWrite :=
  (revealTick (revealTicks n p)).2

/-- The active per-pixel tick streams: the armed intervals, and the pending hold
timeouts that will re-arm one because the animation is playing. -/
def tickStreams (p : Player) : Nat :=
  p.intervals.length + (if p.session.isPlaying then p.timeouts.length else 0)

/-- The frame lookup of lines 268-269 for the closure of call `call`. -/
def frameLookup (call : Nat) (p : Player) : Option Frame :=
  match p.calls[call]? with
  | none => none
  | some cur =>
    match p.session.animationFramesIndices[cur.frameIdxInArray]? with
    | none => none
    | some frameIndex => p.session.frames[frameIndex]?

/-- The page after `n` reveal ticks of a chain started by `playAnimation` on the page
`p`, in closed form: `n / 256` frames are complete, the cursor of the new closure is
`((n / 256) % L, n % 256)`, and either the hold of the frame just completed is pending
or the interval is armed. -/
def chainState (p : Player) (d : Int) (n : Nat) : Player :=
  let cur : Cursor :=
    { duration := d
      frameIdxInArray := (n / 256) % p.session.animationFramesIndices.length
      pixelIndex := n % 256 }
  if n % 256 = 0 ∧ 0 < n then
    { session := { p.session with isPlaying := true }
      playInterval := some (p.nextHandle + 2 * (n / 256) - 2)
      nextHandle := p.nextHandle + 2 * (n / 256)
      calls := p.calls ++ [cur]
      intervals := []
      timeouts := [{ handle := p.nextHandle + 2 * (n / 256) - 1, call := p.calls.length }] }
  else
    { session := { p.session with isPlaying := true }
      playInterval := some (p.nextHandle + 2 * (n / 256))
      nextHandle := p.nextHandle + 2 * (n / 256) + 1
      calls := p.calls ++ [cur]
      intervals := [{ handle := p.nextHandle + 2 * (n / 256), call := p.calls.length }]
      timeouts := [] }

/-- The page with three frames (sequence `[0, 1, 2]`): two `addFrame` calls after
loading. -/
def threeFramePage : Player :=
  edit addFrame (edit addFrame loadedPage)

/-- The three-frame page after: play, the 256 reveal ticks of the first frame (its hold
timeout, handle 2, is pending), stop, play again. -/
def replayedPage : Player :=
  playAnimation "500" (stopAnimation (revealTicks 256 (playAnimation "500" threeFramePage)))

/-! ## Basic lemmas -/

theorem splice_delete_one {α : Type} (xs : List α) (k : Nat) :
    splice xs k 1 [] = xs.eraseIdx k := by
  simp [splice, List.eraseIdx_eq_take_drop_succ]

theorem mem_thumbnailsAdded {frames : List Frame} {idxs : List Nat} {t : Nat}
    (h : t ∈ thumbnailsAdded frames idxs) : t < frames.length := by
  have := List.mem_takeWhile_imp h
  simpa using this

theorem thumbnailsComplete_of_forall {frames : List Frame} {idxs : List Nat}
    (h : ∀ i ∈ idxs, i < frames.length) : thumbnailsComplete frames idxs = true := by
  simp only [thumbnailsComplete, List.all_eq_true, decide_eq_true_eq]
  exact h

theorem blankFrame_length : blankFrame.length = 256 :=
  List.length_replicate 256 white

theorem assignAt_length_of_lt {xs : Frame} {i : Nat} (v : Pixel) (h : i < xs.length) :
    (assignAt xs i v).length = xs.length := by
  simp [assignAt, h]

@[simp] theorem loadFrameToGrid_frames (i : Nat) (s : Session) :
    (loadFrameToGrid i s).frames = s.frames := by
  unfold loadFrameToGrid; split <;> rfl

@[simp] theorem loadFrameToGrid_indices (i : Nat) (s : Session) :
    (loadFrameToGrid i s).animationFramesIndices = s.animationFramesIndices := by
  unfold loadFrameToGrid; split <;> rfl

@[simp] theorem loadFrameToGrid_hidden (i : Nat) (s : Session) :
    (loadFrameToGrid i s).hiddenFrameExists = s.hiddenFrameExists := by
  unfold loadFrameToGrid; split <;> rfl

@[simp] theorem loadFrameToGrid_visible (i : Nat) (s : Session) :
    (loadFrameToGrid i s).visibleFrameIndex = s.visibleFrameIndex := by
  unfold loadFrameToGrid; split <;> rfl

@[simp] theorem loadFrameToGrid_framesList (i : Nat) (s : Session) :
    (loadFrameToGrid i s).framesList = s.framesList := by
  unfold loadFrameToGrid; split <;> rfl

@[simp] theorem loadFrameToGrid_isPlaying (i : Nat) (s : Session) :
    (loadFrameToGrid i s).isPlaying = s.isPlaying := by
  unfold loadFrameToGrid; split <;> rfl

@[simp] theorem loadFrameToGrid_selectedColor (i : Nat) (s : Session) :
    (loadFrameToGrid i s).selectedColor = s.selectedColor := by
  unfold loadFrameToGrid; split <;> rfl

/-- Dropping `k` from a run of consecutive indices above `k` and shifting gives the run
one lower. -/
theorem shift_range_above (k : Nat) : ∀ (n s : Nat), k < s →
    ((List.range' s n).filter (fun i => i ≠ k)).map (fun i => if i > k then i - 1 else i)
      = List.range' (s - 1) n := by
  intro n
  induction n with
  | zero => intro s _; simp
  | succ n ih =>
    intro s hs
    have hne : s ≠ k := by omega
    have h1 : s - 1 + 1 = s := by omega
    rw [List.range'_succ, List.range'_succ]
    simp only [ne_eq, hne, not_false_eq_true, decide_True, List.filter_cons_of_pos,
      List.map_cons, gt_iff_lt, hs, if_true, h1]
    have := ih (s + 1) (by omega)
    simp only [ne_eq, gt_iff_lt, Nat.add_sub_cancel] at this
    rw [this]

/-- Dropping `k` from a run of consecutive indices that contains it and shifting the
later ones gives the run shortened by one. -/
theorem shift_range_through (k : Nat) : ∀ (n s : Nat), s ≤ k → k < s + n →
    ((List.range' s n).filter (fun i => i ≠ k)).map (fun i => if i > k then i - 1 else i)
      = List.range' s (n - 1) := by
  intro n
  induction n with
  | zero => intro s h1 h2; omega
  | succ n ih =>
    intro s h1 h2
    rw [List.range'_succ]
    by_cases hs : s = k
    · subst hs
      have := shift_range_above s n (s + 1) (by omega)
      simp only [ne_eq, gt_iff_lt, Nat.add_sub_cancel] at this
      simp only [ne_eq, not_true_eq_false, decide_False, Bool.false_eq_true,
        not_false_eq_true, List.filter_cons_of_neg, gt_iff_lt, Nat.add_sub_cancel]
      exact this
    · have hlt : ¬ k < s := by omega
      have hn : n - 1 + 1 = n := by omega
      have := ih (s + 1) (by omega) (by omega)
      simp only [ne_eq, gt_iff_lt] at this
      simp only [ne_eq, hs, not_false_eq_true, decide_True, List.filter_cons_of_pos,
        List.map_cons, gt_iff_lt, hlt, if_false, Nat.add_sub_cancel]
      rw [this, ← List.range'_succ, hn]

theorem shift_range (k n : Nat) (hk : k < n) :
    ((List.range n).filter (fun i => i ≠ k)).map (fun i => if i > k then i - 1 else i)
      = List.range (n - 1) := by
  rw [List.range_eq_range', List.range_eq_range']
  exact shift_range_through k n 0 (Nat.zero_le k) (by omega)

/-! ## The operations, field by field -/

@[simp] theorem refreshAfterDelete_frames (s : Session) :
    (refreshAfterDelete s).frames = s.frames := by
  unfold refreshAfterDelete; simp only []; split <;> simp

@[simp] theorem refreshAfterDelete_indices (s : Session) :
    (refreshAfterDelete s).animationFramesIndices = s.animationFramesIndices := by
  unfold refreshAfterDelete; simp only []; split <;> simp

@[simp] theorem refreshAfterDelete_hidden (s : Session) :
    (refreshAfterDelete s).hiddenFrameExists = s.hiddenFrameExists := by
  unfold refreshAfterDelete; simp only []; split <;> simp

@[simp] theorem refreshAfterDelete_visible (s : Session) :
    (refreshAfterDelete s).visibleFrameIndex = s.visibleFrameIndex := by
  unfold refreshAfterDelete; simp only []; split <;> simp

theorem refreshAfterDelete_framesList (s : Session) :
    (refreshAfterDelete s).framesList = thumbnailsAdded s.frames
      (s.animationFramesIndices.filter (fun i => !(s.hiddenFrameExists && i == 1))) := by
  unfold refreshAfterDelete; simp only []; split <;> simp

@[simp] theorem restoreHiddenFrame_visible (s : Session) :
    (restoreHiddenFrame s).visibleFrameIndex = s.visibleFrameIndex := by
  unfold restoreHiddenFrame; split <;> rfl

@[simp] theorem removeFrame_frames (k : Nat) (s : Session) :
    (removeFrame k s).frames = s.frames.eraseIdx k := by
  simp [removeFrame, splice_delete_one]

@[simp] theorem removeFrame_hidden (k : Nat) (s : Session) :
    (removeFrame k s).hiddenFrameExists = s.hiddenFrameExists := rfl

theorem removeFrame_indices (k : Nat) (s : Session) :
    (removeFrame k s).animationFramesIndices
      = (s.animationFramesIndices.filter (fun i => i ≠ k)).map
          (fun i => if i > k then i - 1 else i) := rfl

theorem removeFrame_visible (k : Nat) (s : Session) :
    (removeFrame k s).visibleFrameIndex
      = if s.visibleFrameIndex = k then 0
        else if s.visibleFrameIndex > k then s.visibleFrameIndex - 1
        else s.visibleFrameIndex := rfl

/-- An in-bounds answer on a store of at least two frames runs the three phases of
`deleteFrame`. -/
theorem deleteFrame_accepted (answer : Option String) (s : Session) (k : Nat)
    (h2 : 2 ≤ s.frames.length) (hp : parseInt (promptText answer) = some ((k : Int) + 1))
    (hk : k < s.frames.length) :
    deleteFrame answer s = refreshAfterDelete (restoreHiddenFrame (removeFrame k s)) := by
  unfold deleteFrame
  rw [if_neg (by omega)]
  simp only [hp]
  have hin : ¬ ((k : Int) + 1 - 1 < 0 ∨ (k : Int) + 1 - 1 ≥ (s.frames.length : Int)) := by
    omega
  rw [if_neg hin]
  have hnat : ((k : Int) + 1 - 1).toNat = k := by omega
  rw [hnat]

theorem addFrame_frames (s : Session) :
    (addFrame s).frames = realFrames s ++ [blankFrame] := by
  unfold addFrame realFrames
  simp only [splice_delete_one]
  split <;> simp <;> split <;> simp

@[simp] theorem addFrame_hidden (s : Session) : (addFrame s).hiddenFrameExists = false := by
  unfold addFrame
  simp only []
  split <;> simp <;> split <;> simp

theorem addFrame_indices (s : Session) :
    (addFrame s).animationFramesIndices
      = (if s.hiddenFrameExists then s.animationFramesIndices.filter (fun i => i ≠ 1)
          else s.animationFramesIndices) ++ [(realFrames s).length] := by
  unfold addFrame realFrames
  simp only [splice_delete_one]
  split <;> simp <;> split <;> simp

theorem addFrame_framesList (s : Session) :
    (addFrame s).framesList
      = thumbnailsAdded (addFrame s).frames (addFrame s).animationFramesIndices := by
  rw [addFrame_frames, addFrame_indices]
  unfold addFrame realFrames
  simp only [splice_delete_one]
  split <;> simp <;> split <;> simp

theorem addFrame_visible_of_complete (s : Session)
    (h : thumbnailsComplete (addFrame s).frames (addFrame s).animationFramesIndices = true) :
    (addFrame s).visibleFrameIndex = (realFrames s).length := by
  rw [addFrame_frames, addFrame_indices] at h
  unfold addFrame
  unfold realFrames at h ⊢
  simp only [splice_delete_one] at h ⊢
  simp only [List.length_append, List.length_singleton, Nat.add_sub_cancel]
  rw [if_pos h]
  simp

@[simp] theorem pixelClick_indices (i : Nat) (s : Session) :
    (pixelClick i s).animationFramesIndices = s.animationFramesIndices := by
  unfold pixelClick; split
  · rfl
  · simp only []; split <;> rfl

@[simp] theorem pixelClick_hidden (i : Nat) (s : Session) :
    (pixelClick i s).hiddenFrameExists = s.hiddenFrameExists := by
  unfold pixelClick; split
  · rfl
  · simp only []; split <;> rfl

@[simp] theorem pixelClick_visible (i : Nat) (s : Session) :
    (pixelClick i s).visibleFrameIndex = s.visibleFrameIndex := by
  unfold pixelClick; split
  · rfl
  · simp only []; split <;> rfl

@[simp] theorem pixelClick_framesList (i : Nat) (s : Session) :
    (pixelClick i s).framesList = s.framesList := by
  unfold pixelClick; split
  · rfl
  · simp only []; split <;> rfl

theorem pixelClick_frames (i : Nat) (s : Session) (f : Frame) (hp : s.isPlaying = false)
    (hf : s.frames[s.visibleFrameIndex]? = some f) :
    (pixelClick i s).frames
      = s.frames.set s.visibleFrameIndex (assignAt f i (some s.selectedColor)) := by
  unfold pixelClick
  simp [hp, hf]

theorem pixelClick_frames_length (i : Nat) (s : Session) :
    (pixelClick i s).frames.length = s.frames.length := by
  unfold pixelClick; split
  · rfl
  · simp only []; split <;> simp

theorem start_frames : start.frames = [blankFrame, blankFrame] := rfl

theorem start_indices : start.animationFramesIndices = [0, 1] := rfl

theorem start_hidden : start.hiddenFrameExists = true := rfl

theorem start_visible : start.visibleFrameIndex = 0 := rfl

theorem start_framesList : start.framesList = [0] := rfl

/-! ## The invariant holds in every reachable session -/

theorem realFrames_length (s : Session) :
    (realFrames s).length
      = if s.hiddenFrameExists = true ∧ 1 < s.frames.length then s.frames.length - 1
        else s.frames.length := by
  unfold realFrames
  cases s.hiddenFrameExists <;> simp [List.length_eraseIdx]

theorem mem_realFrames {s : Session} {f : Frame} (h : f ∈ realFrames s) : f ∈ s.frames := by
  unfold realFrames at h
  split at h
  · exact List.mem_of_mem_eraseIdx h
  · exact h

theorem indices_of_coreInv {s : Session} (h : CoreInv s) :
    (if s.hiddenFrameExists then s.animationFramesIndices.filter (fun i => i ≠ 1)
      else s.animationFramesIndices) = List.range (realFrames s).length := by
  rw [h.indices_eq, realFrames_length]
  cases hh : s.hiddenFrameExists
  · simp
  · have h1 := h.hidden_le hh
    have h2 := h.frames_pos
    rcases (by omega : s.frames.length = 1 ∨ s.frames.length = 2) with h3 | h3
    · rw [h3]; decide
    · rw [h3]; decide

theorem addFrame_indices_of_coreInv {s : Session} (h : CoreInv s) :
    (addFrame s).animationFramesIndices = List.range (addFrame s).frames.length := by
  rw [addFrame_indices, indices_of_coreInv h, addFrame_frames]
  simp [List.range_succ]

theorem addFrame_complete {s : Session} (h : CoreInv s) :
    thumbnailsComplete (addFrame s).frames (addFrame s).animationFramesIndices = true := by
  apply thumbnailsComplete_of_forall
  rw [addFrame_indices_of_coreInv h]
  intro i hi
  exact List.mem_range.mp hi

theorem addFrame_visible {s : Session} (h : CoreInv s) :
    (addFrame s).visibleFrameIndex = (realFrames s).length :=
  addFrame_visible_of_complete s (addFrame_complete h)

theorem inv_start : Inv start := by
  refine ⟨⟨?_, ?_, ?_, ?_, ?_⟩, ?_, ?_⟩
  · rw [start_frames]; decide
  · rw [start_frames, start_indices]; decide
  · rw [start_frames, start_visible]; decide
  · intro _; rw [start_frames]; decide
  · intro f hf
    rw [start_frames] at hf
    simp only [List.mem_cons, List.mem_singleton, List.not_mem_nil, or_false, or_self] at hf
    rw [hf]; exact blankFrame_length
  · intro t ht
    rw [start_framesList] at ht
    rw [start_frames]
    simp only [List.mem_singleton] at ht
    subst ht; decide
  · intro hh; rw [start_hidden] at hh; cases hh

theorem inv_addFrame {s : Session} (h : Inv s) : Inv (addFrame s) := by
  have hc := h.toCoreInv
  have hlen : (addFrame s).frames.length = (realFrames s).length + 1 := by
    rw [addFrame_frames]; simp
  have hreal : 1 ≤ (realFrames s).length := by
    rw [realFrames_length]
    have := h.frames_pos
    split <;> omega
  refine ⟨⟨?_, ?_, ?_, ?_, ?_⟩, ?_, ?_⟩
  · omega
  · exact addFrame_indices_of_coreInv hc
  · rw [addFrame_visible hc]; omega
  · intro hh; simp at hh
  · intro f hf
    rw [addFrame_frames] at hf
    rcases List.mem_append.mp hf with hf | hf
    · exact h.frame_len f (mem_realFrames hf)
    · rw [List.mem_singleton.mp hf]; exact blankFrame_length
  · intro t ht
    rw [addFrame_framesList] at ht
    exact mem_thumbnailsAdded ht
  · intro _; omega

theorem coreInv_removeFrame {s : Session} (h : CoreInv s) (k : Nat)
    (hk : k < s.frames.length) (h2 : 2 ≤ s.frames.length) : CoreInv (removeFrame k s) := by
  have hlen : (removeFrame k s).frames.length = s.frames.length - 1 := by
    rw [removeFrame_frames, List.length_eraseIdx_of_lt hk]
  refine ⟨?_, ?_, ?_, ?_, ?_⟩
  · omega
  · rw [removeFrame_indices, h.indices_eq, hlen]
    exact shift_range k s.frames.length hk
  · rw [removeFrame_visible, hlen]
    have := h.visible_lt
    split
    · omega
    · split <;> omega
  · intro hh
    have := h.hidden_le hh
    omega
  · intro f hf
    rw [removeFrame_frames] at hf
    exact h.frame_len f (List.mem_of_mem_eraseIdx hf)

/-- When the hidden frame is put back, the store is the surviving frame followed by
a blank frame and the sequence is `[0, 1]`. -/
theorem restoreHiddenFrame_of_restore {t : Session} (h : CoreInv t)
    (hc : t.animationFramesIndices.length = 1 ∧ t.hiddenFrameExists = false) :
    (restoreHiddenFrame t).frames = t.frames ++ [blankFrame]
      ∧ (restoreHiddenFrame t).animationFramesIndices = [0, 1]
      ∧ (restoreHiddenFrame t).hiddenFrameExists = true := by
  have hl : t.frames.length = 1 := by
    have := hc.1
    rw [h.indices_eq, List.length_range] at this
    exact this
  have hseq : t.animationFramesIndices = [0] := by
    rw [h.indices_eq, hl]; rfl
  unfold restoreHiddenFrame
  rw [if_pos hc]
  refine ⟨?_, ?_, rfl⟩
  · show splice t.frames 1 0 [blankFrame] = t.frames ++ [blankFrame]
    unfold splice
    rw [List.take_of_length_le (by omega), List.drop_of_length_le (by omega)]
    simp
  · show sortAscending (t.animationFramesIndices ++ [1]) = [0, 1]
    rw [hseq]; decide

theorem restoreHiddenFrame_of_keep {t : Session}
    (hc : ¬ (t.animationFramesIndices.length = 1 ∧ t.hiddenFrameExists = false)) :
    restoreHiddenFrame t = t := by
  unfold restoreHiddenFrame
  rw [if_neg hc]

theorem coreInv_restoreHiddenFrame {t : Session} (h : CoreInv t) :
    CoreInv (restoreHiddenFrame t)
      ∧ ((restoreHiddenFrame t).hiddenFrameExists = false
          → 2 ≤ (restoreHiddenFrame t).frames.length) := by
  by_cases hc : t.animationFramesIndices.length = 1 ∧ t.hiddenFrameExists = false
  · obtain ⟨hf, hi, hh⟩ := restoreHiddenFrame_of_restore h hc
    have hl : t.frames.length = 1 := by
      have := hc.1
      rw [h.indices_eq, List.length_range] at this
      exact this
    have hlen : (restoreHiddenFrame t).frames.length = 2 := by
      rw [hf]; simp [hl]
    refine ⟨⟨?_, ?_, ?_, ?_, ?_⟩, ?_⟩
    · omega
    · rw [hi, hlen]; rfl
    · rw [restoreHiddenFrame_visible, hlen]
      have := h.visible_lt
      omega
    · intro _; omega
    · intro f hmem
      rw [hf] at hmem
      rcases List.mem_append.mp hmem with hmem | hmem
      · exact h.frame_len f hmem
      · rw [List.mem_singleton.mp hmem]; exact blankFrame_length
    · intro _; omega
  · rw [restoreHiddenFrame_of_keep hc]
    refine ⟨h, ?_⟩
    intro hh
    have h1 := h.frames_pos
    have h3 : t.animationFramesIndices.length = t.frames.length := by
      rw [h.indices_eq, List.length_range]
    have h4 : t.animationFramesIndices.length ≠ 1 := fun h5 => hc ⟨h5, hh⟩
    omega

theorem inv_refreshAfterDelete {t : Session} (h : CoreInv t)
    (hs : t.hiddenFrameExists = false → 2 ≤ t.frames.length) :
    Inv (refreshAfterDelete t) := by
  refine ⟨⟨?_, ?_, ?_, ?_, ?_⟩, ?_, ?_⟩
  · simpa using h.frames_pos
  · simpa using h.indices_eq
  · simpa using h.visible_lt
  · simpa using h.hidden_le
  · simpa using h.frame_len
  · intro i hi
    rw [refreshAfterDelete_framesList] at hi
    simpa using mem_thumbnailsAdded hi
  · simpa using hs

theorem inv_deletePhases {s : Session} (h : Inv s) (k : Nat)
    (hk : k < s.frames.length) (h2 : 2 ≤ s.frames.length) :
    Inv (refreshAfterDelete (restoreHiddenFrame (removeFrame k s))) := by
  obtain ⟨h3, h4⟩ := coreInv_restoreHiddenFrame (coreInv_removeFrame h.toCoreInv k hk h2)
  exact inv_refreshAfterDelete h3 h4

/-- Every run of `deleteFrame` either leaves the session as it is or runs the three
phases on an in-bounds index of a store of at least two frames. -/
theorem deleteFrame_cases (answer : Option String) (s : Session) :
    deleteFrame answer s = s
      ∨ ∃ k : Nat, 2 ≤ s.frames.length ∧ k < s.frames.length
          ∧ parseInt (promptText answer) = some ((k : Int) + 1)
          ∧ deleteFrame answer s = refreshAfterDelete (restoreHiddenFrame (removeFrame k s)) := by
  by_cases h1 : s.frames.length ≤ 1
  · left; unfold deleteFrame; rw [if_pos h1]
  · cases hp : parseInt (promptText answer) with
    | none => left; unfold deleteFrame; rw [if_neg h1]; simp only [hp]
    | some n =>
      by_cases hin : n - 1 < 0 ∨ n - 1 ≥ (s.frames.length : Int)
      · left; unfold deleteFrame; rw [if_neg h1]; simp only [hp]; rw [if_pos hin]
      · right
        have hn : n = (((n - 1).toNat : Nat) : Int) + 1 := by omega
        refine ⟨(n - 1).toNat, by omega, by omega, by rw [← hn], ?_⟩
        exact deleteFrame_accepted answer s (n - 1).toNat (by omega) (by rw [hp, ← hn])
          (by omega)

theorem inv_deleteFrame {s : Session} (answer : Option String) (h : Inv s) :
    Inv (deleteFrame answer s) := by
  rcases deleteFrame_cases answer s with he | ⟨k, h2, hk, _, he⟩
  · rw [he]; exact h
  · rw [he]; exact inv_deletePhases h k hk h2

theorem inv_pixelClick {s : Session} (i : Nat) (hi : i < 256) (h : Inv s) :
    Inv (pixelClick i s) := by
  have hl := pixelClick_frames_length i s
  refine ⟨⟨?_, ?_, ?_, ?_, ?_⟩, ?_, ?_⟩
  · rw [hl]; exact h.frames_pos
  · rw [hl, pixelClick_indices]; exact h.indices_eq
  · rw [hl, pixelClick_visible]; exact h.visible_lt
  · rw [hl, pixelClick_hidden]; exact h.hidden_le
  · intro f hf
    cases hp : s.isPlaying with
    | true =>
      have : pixelClick i s = s := by unfold pixelClick; simp [hp]
      rw [this] at hf
      exact h.frame_len f hf
    | false =>
      have hv := h.visible_lt
      have hget : s.frames[s.visibleFrameIndex]? = some (s.frames[s.visibleFrameIndex]) :=
        List.getElem?_eq_getElem hv
      rw [pixelClick_frames i s _ hp hget] at hf
      rcases List.mem_or_eq_of_mem_set hf with hf | hf
      · exact h.frame_len f hf
      · have h256 : (s.frames[s.visibleFrameIndex]).length = 256 :=
          h.frame_len _ (List.getElem_mem hv)
        rw [hf, assignAt_length_of_lt _ (by omega)]
        exact h256
  · rw [hl, pixelClick_framesList]; exact h.thumbs_lt
  · rw [hl, pixelClick_hidden]; exact h.shown_ge

theorem inv_thumbnailClick {s : Session} (j : Nat) (h : Inv s) : Inv (thumbnailClick j s) := by
  unfold thumbnailClick
  split
  · rename_i frameIndex hj
    have hmem : frameIndex ∈ s.framesList := List.getElem?_mem hj
    have hlt := h.thumbs_lt frameIndex hmem
    refine ⟨⟨?_, ?_, ?_, ?_, ?_⟩, ?_, ?_⟩
    · simpa using h.frames_pos
    · simpa using h.indices_eq
    · simpa using hlt
    · simpa using h.hidden_le
    · simpa using h.frame_len
    · simpa using h.thumbs_lt
    · simpa using h.shown_ge
  · exact h

theorem inv_swatchClick {s : Session} (color : String) (h : Inv s) :
    Inv (swatchClick color s) :=
  ⟨⟨h.frames_pos, h.indices_eq, h.visible_lt, h.hidden_le, h.frame_len⟩, h.thumbs_lt, h.shown_ge⟩

theorem inv_setPlaying {s : Session} (b : Bool) (h : Inv s) : Inv (setPlaying b s) :=
  ⟨⟨h.frames_pos, h.indices_eq, h.visible_lt, h.hidden_le, h.frame_len⟩, h.thumbs_lt, h.shown_ge⟩

/-- Every reachable session satisfies the invariant. -/
theorem inv_of_reachable {s : Session} (h : Reachable s) : Inv s := by
  induction h with
  | start => exact inv_start
  | addFrame _ ih => exact inv_addFrame ih
  | deleteFrame answer _ ih => exact inv_deleteFrame answer ih
  | pixelClick i hi _ ih => exact inv_pixelClick i hi ih
  | thumbnailClick j _ ih => exact inv_thumbnailClick j ih
  | swatchClick color _ ih => exact inv_swatchClick color ih
  | setPlaying b _ ih => exact inv_setPlaying b ih

/-! ## The stored hidden frame stays blank -/

theorem hiddenBlank_deletePhases {s : Session} (h : Inv s) (k : Nat)
    (hk : k < s.frames.length) (h2 : 2 ≤ s.frames.length) :
    HiddenBlank (refreshAfterDelete (restoreHiddenFrame (removeFrame k s))) := by
  have hcore := coreInv_removeFrame h.toCoreInv k hk h2
  intro hh hlen
  rw [refreshAfterDelete_hidden] at hh
  rw [refreshAfterDelete_frames] at hlen
  rw [refreshAfterDelete_frames, refreshAfterDelete_visible, refreshAfterDelete_framesList]
  have hthumb : 1 ∉ thumbnailsAdded (restoreHiddenFrame (removeFrame k s)).frames
      ((restoreHiddenFrame (removeFrame k s)).animationFramesIndices.filter
        (fun i => !((restoreHiddenFrame (removeFrame k s)).hiddenFrameExists && i == 1))) := by
    intro hmem
    have h1 := List.takeWhile_subset _ hmem
    have h3 := (List.mem_filter.mp h1).2
    rw [hh] at h3
    simp at h3
  by_cases hc : (removeFrame k s).animationFramesIndices.length = 1
      ∧ (removeFrame k s).hiddenFrameExists = false
  · obtain ⟨hf, _, _⟩ := restoreHiddenFrame_of_restore hcore hc
    have hl : (removeFrame k s).frames.length = 1 := by
      have h1 := hc.1
      rw [hcore.indices_eq, List.length_range] at h1
      exact h1
    refine ⟨?_, ?_, hthumb⟩
    · rw [hf]
      obtain ⟨a, ha⟩ := List.length_eq_one.mp hl
      rw [ha]; rfl
    · rw [restoreHiddenFrame_visible]
      have := hcore.visible_lt
      omega
  · rw [restoreHiddenFrame_of_keep hc] at hh hlen
    rw [removeFrame_hidden] at hh
    rw [removeFrame_frames, List.length_eraseIdx_of_lt hk] at hlen
    have := h.hidden_le hh
    omega

theorem hiddenBlank_of_reachable {s : Session} (h : Reachable s) : HiddenBlank s := by
  induction h with
  | start =>
    intro _ _
    refine ⟨rfl, rfl, ?_⟩
    rw [start_framesList]; decide
  | addFrame _ _ =>
    intro hh
    rw [addFrame_hidden] at hh
    cases hh
  | @deleteFrame s answer hr ih =>
    rcases deleteFrame_cases answer s with he | ⟨k, h2, hk, _, he⟩
    · rw [he]; exact ih
    · rw [he]; exact hiddenBlank_deletePhases (inv_of_reachable hr) k hk h2
  | @pixelClick s i _ hr ih =>
    intro hh hlen
    rw [pixelClick_hidden] at hh
    rw [pixelClick_frames_length] at hlen
    obtain ⟨hb, hv, ht⟩ := ih hh hlen
    rw [pixelClick_visible, pixelClick_framesList]
    refine ⟨?_, hv, ht⟩
    cases hp : s.isPlaying with
    | true =>
      have : pixelClick i s = s := by unfold pixelClick; rw [if_pos hp]
      rw [this]; exact hb
    | false =>
      have hlt : s.visibleFrameIndex < s.frames.length := (inv_of_reachable hr).visible_lt
      have hget : s.frames[s.visibleFrameIndex]? = some (s.frames[s.visibleFrameIndex]) :=
        List.getElem?_eq_getElem hlt
      rw [pixelClick_frames i s _ hp hget, List.getElem?_set_ne (by omega)]
      exact hb
  | @thumbnailClick s j hr ih =>
    unfold thumbnailClick
    split
    · rename_i frameIndex hj
      intro hh hlen
      rw [loadFrameToGrid_hidden] at hh
      rw [loadFrameToGrid_frames] at hlen
      obtain ⟨hb, _, ht⟩ := ih hh hlen
      have hmem : frameIndex ∈ s.framesList := List.getElem?_mem hj
      have hlt := (inv_of_reachable hr).thumbs_lt frameIndex hmem
      have hne : frameIndex ≠ 1 := fun h1 => ht (h1 ▸ hmem)
      rw [loadFrameToGrid_frames, loadFrameToGrid_visible, loadFrameToGrid_framesList]
      have hlen2 : s.frames.length = 2 := hlen
      have hzero : frameIndex = 0 := by omega
      exact ⟨hb, hzero, ht⟩
    · exact ih
  | swatchClick color _ ih => exact ih
  | setPlaying b _ ih => exact ih

/-- On a store of at least two frames, `addFrame` followed by `deleteFrame` of the new
frame gives back the store and the sequence. -/
theorem add_delete_round_trip_of_two_frames {s : Session} (hr : Reachable s)
    (h2 : 2 ≤ s.frames.length) (answer : Option String)
    (hp : parseInt (promptText answer)
      = some ((((addFrame s).frames.length - 1 : Nat) : Int) + 1)) :
    (deleteFrame answer (addFrame s)).frames = s.frames
      ∧ (deleteFrame answer (addFrame s)).animationFramesIndices
          = s.animationFramesIndices := by
  have hinv := inv_of_reachable hr
  have hinva := inv_addFrame hinv
  have h2a : 2 ≤ (addFrame s).frames.length := hinva.shown_ge (addFrame_hidden s)
  have hka : (addFrame s).frames.length - 1 < (addFrame s).frames.length := by omega
  have hcore := coreInv_removeFrame hinva.toCoreInv _ hka h2a
  have hk : (addFrame s).frames.length - 1 = (realFrames s).length := by
    rw [addFrame_frames]; simp
  have hfr : (removeFrame ((addFrame s).frames.length - 1) (addFrame s)).frames
      = realFrames s := by
    rw [removeFrame_frames, hk, addFrame_frames,
      List.eraseIdx_append_of_length_le (Nat.le_refl _)]
    simp
  have hix : (removeFrame ((addFrame s).frames.length - 1) (addFrame s)).animationFramesIndices
      = List.range (realFrames s).length := by
    rw [hcore.indices_eq, hfr]
  rw [deleteFrame_accepted answer (addFrame s) _ h2a hp hka, refreshAfterDelete_frames,
    refreshAfterDelete_indices]
  cases hh : s.hiddenFrameExists with
  | false =>
    have hreal : realFrames s = s.frames := by unfold realFrames; rw [hh]; rfl
    have hc : ¬ ((removeFrame ((addFrame s).frames.length - 1)
          (addFrame s)).animationFramesIndices.length = 1
        ∧ (removeFrame ((addFrame s).frames.length - 1) (addFrame s)).hiddenFrameExists
            = false) := by
      rw [hix, List.length_range, hreal]
      intro h; omega
    rw [restoreHiddenFrame_of_keep hc, hfr, hix, hreal, hinv.indices_eq]
    exact ⟨rfl, rfl⟩
  | true =>
    have hl : s.frames.length = 2 := by
      have := hinv.hidden_le hh
      omega
    obtain ⟨hb, _, _⟩ := hiddenBlank_of_reachable hr hh hl
    obtain ⟨a, b, hab⟩ := List.length_eq_two.mp hl
    have hbb : b = blankFrame := by
      rw [hab] at hb
      exact Option.some.inj hb
    have hreal : realFrames s = [a] := by unfold realFrames; rw [hh, hab]; rfl
    have hc : (removeFrame ((addFrame s).frames.length - 1)
          (addFrame s)).animationFramesIndices.length = 1
        ∧ (removeFrame ((addFrame s).frames.length - 1) (addFrame s)).hiddenFrameExists
            = false := by
      rw [hix, List.length_range, hreal, removeFrame_hidden, addFrame_hidden]
      exact ⟨rfl, rfl⟩
    obtain ⟨hf, hi, _⟩ := restoreHiddenFrame_of_restore hcore hc
    rw [hf, hi, hfr, hreal, hinv.indices_eq, hl, hab, hbb]
    exact ⟨rfl, rfl⟩

theorem filter_map_eq_shiftedSequence (k : Nat) (xs : List Nat) :
    (xs.filter (fun i => i ≠ k)).map (fun i => if i > k then i - 1 else i)
      = shiftedSequence k xs := by
  induction xs with
  | nil => rfl
  | cons x xs ih =>
    unfold shiftedSequence at ih ⊢
    by_cases hx : x = k
    · subst hx
      simpa [shiftIndex] using ih
    · by_cases hlt : x < k
      · have hgt : ¬ x > k := by omega
        simp only [ne_eq, hx, not_false_eq_true, decide_True, List.filter_cons_of_pos,
          List.map_cons, hgt, if_false]
        rw [List.filterMap_cons]
        simp only [shiftIndex, hx, if_false, hlt, if_true]
        rw [ih]
      · have hgt : x > k := by omega
        simp only [ne_eq, hx, not_false_eq_true, decide_True, List.filter_cons_of_pos,
          List.map_cons, hgt, if_true]
        rw [List.filterMap_cons]
        simp only [shiftIndex, hx, if_false, hlt]
        rw [ih]

/-! ## The hidden frame and the delete guard -/

/-- C1 (the script departs from it): after the page has loaded, answering `2` to the
prompt of `deleteFrame` is accepted, because the guard counts the hidden frame among
the two stored frames.  The session reached has one real frame, the flag
`hiddenFrameExists` still set, no frame at index 1, and the one-entry sequence `[0]`
that does not contain index 1. -/
theorem hidden_frame_deleted_from_start :
    Reachable (deleteFrame (some "2") start)
      ∧ realFrameCount (deleteFrame (some "2") start) = 1
      ∧ (deleteFrame (some "2") start).hiddenFrameExists = true
      ∧ (deleteFrame (some "2") start).frames = [blankFrame]
      ∧ (deleteFrame (some "2") start).frames[1]? = none
      ∧ (deleteFrame (some "2") start).animationFramesIndices = [0]
      ∧ 1 ∉ (deleteFrame (some "2") start).animationFramesIndices :=
  ⟨Reachable.deleteFrame (some "2") Reachable.start, rfl, rfl, rfl, rfl, rfl, by decide⟩

/-- C2 (the script departs from it): with one real frame, painted black at pixel 0,
answering `1` to the prompt of `deleteFrame` is accepted: the painted frame is removed
from the store, the hidden frame moves to index 0 and the sequence shrinks from
`[0, 1]` to `[0]`. -/
theorem only_real_frame_deleted :
    Reachable (pixelClick 0 start)
      ∧ realFrameCount (pixelClick 0 start) = 1
      ∧ (pixelClick 0 start).frames = [assignAt blankFrame 0 (some "#000000"), blankFrame]
      ∧ (pixelClick 0 start).animationFramesIndices = [0, 1]
      ∧ (deleteFrame (some "1") (pixelClick 0 start)).frames = [blankFrame]
      ∧ (deleteFrame (some "1") (pixelClick 0 start)).animationFramesIndices = [0]
      ∧ deleteFrame (some "1") start ≠ start :=
  ⟨Reachable.pixelClick 0 (by decide) Reachable.start, rfl, rfl, rfl, rfl, rfl,
    fun h => absurd (congrArg Session.animationFramesIndices h) (by decide)⟩

/-- C3 (the script departs from it): the scenario of the specification holds
(load, `addFrame`, delete the new frame: store `[frame0, blank]`, sequence `[0, 1]`),
but in the reachable session left by deleting the hidden frame the round trip
`addFrame` then `deleteFrame` of the new index 1 returns a store of two frames and the
sequence `[0, 1]` instead of the one frame and the sequence `[0]` it started from. -/
theorem add_delete_round_trip_from_one_frame :
    (deleteFrame (some "2") (addFrame start)).frames = [blankFrame, blankFrame]
      ∧ (deleteFrame (some "2") (addFrame start)).animationFramesIndices = [0, 1]
      ∧ Reachable (deleteFrame (some "2") start)
      ∧ (deleteFrame (some "2") start).frames = [blankFrame]
      ∧ (deleteFrame (some "2") start).animationFramesIndices = [0]
      ∧ (addFrame (deleteFrame (some "2") start)).frames.length - 1 = 1
      ∧ (deleteFrame (some "2") (addFrame (deleteFrame (some "2") start))).frames
          = [blankFrame, blankFrame]
      ∧ (deleteFrame (some "2") (addFrame (deleteFrame (some "2") start))).animationFramesIndices
          = [0, 1] :=
  ⟨rfl, rfl, Reachable.deleteFrame (some "2") Reachable.start, rfl, rfl, rfl, rfl, rfl⟩

/-! ## `deleteFrame` -/

/-- C4: for every session and every index `k` that `deleteFrame` accepts (at least two
stored frames, the answer parses to `k + 1`, `k` in bounds), the sequence before the
hidden frame is put back is the old sequence with the entries equal to `k` dropped,
the entries below `k` kept and the entries above `k` lowered by one, in the same
order; the final sequence is that one, followed by index 1 and sorted when the hidden
frame is put back; and a visible index other than `k` follows the same rule. -/
theorem deleteFrame_index_shift (s : Session) (answer : Option String) (k : Nat)
    (h2 : 2 ≤ s.frames.length) (hk : k < s.frames.length)
    (hp : parseInt (promptText answer) = some ((k : Int) + 1)) :
    (removeFrame k s).animationFramesIndices = shiftedSequence k s.animationFramesIndices
      ∧ (deleteFrame answer s).animationFramesIndices
          = (if (shiftedSequence k s.animationFramesIndices).length = 1
                ∧ s.hiddenFrameExists = false
              then sortAscending (shiftedSequence k s.animationFramesIndices ++ [1])
              else shiftedSequence k s.animationFramesIndices)
      ∧ (s.visibleFrameIndex ≠ k →
          shiftIndex k s.visibleFrameIndex = some (deleteFrame answer s).visibleFrameIndex) := by
  have hseq : (removeFrame k s).animationFramesIndices
      = shiftedSequence k s.animationFramesIndices := by
    rw [removeFrame_indices, filter_map_eq_shiftedSequence]
  refine ⟨hseq, ?_, ?_⟩
  · rw [deleteFrame_accepted answer s k h2 hp hk, refreshAfterDelete_indices]
    unfold restoreHiddenFrame
    rw [hseq, removeFrame_hidden]
    split
    · rfl
    · exact hseq
  · intro hv
    rw [deleteFrame_accepted answer s k h2 hp hk, refreshAfterDelete_visible,
      restoreHiddenFrame_visible, removeFrame_visible]
    unfold shiftIndex
    rw [if_neg hv, if_neg hv]
    by_cases hlt : s.visibleFrameIndex < k
    · have hgt : ¬ s.visibleFrameIndex > k := by omega
      rw [if_pos hlt, if_neg hgt]
    · have hgt : s.visibleFrameIndex > k := by omega
      rw [if_neg hlt, if_pos hgt]

/-- Witness of C4: three frames, the third one visible, answer `2` (index 1). -/
theorem deleteFrame_index_shift_witness :
    (removeFrame 1 (addFrame (addFrame start))).animationFramesIndices
        = shiftedSequence 1 (addFrame (addFrame start)).animationFramesIndices
      ∧ shiftedSequence 1 (addFrame (addFrame start)).animationFramesIndices = [0, 1]
      ∧ (deleteFrame (some "2") (addFrame (addFrame start))).animationFramesIndices = [0, 1]
      ∧ shiftIndex 1 (addFrame (addFrame start)).visibleFrameIndex
          = some (deleteFrame (some "2") (addFrame (addFrame start))).visibleFrameIndex
      ∧ (deleteFrame (some "2") (addFrame (addFrame start))).visibleFrameIndex = 1 :=
  have h := deleteFrame_index_shift (addFrame (addFrame start)) (some "2") 1
    (by decide) (by decide) rfl
  ⟨h.1, rfl, rfl, h.2.2 (by decide), rfl⟩

/-- C5: in every reachable session, for every index `k` that `deleteFrame` accepts:
when the hidden frame is put back (one sequence entry left and no hidden frame), the
store had two frames and becomes the surviving frame followed by an all-white
256-pixel frame; otherwise the store loses exactly the frame at `k`: one frame fewer,
the frames below `k` stay in place and every later frame moves down by one. -/
theorem deleteFrame_store (s : Session) (answer : Option String) (k : Nat)
    (hr : Reachable s) (h2 : 2 ≤ s.frames.length) (hk : k < s.frames.length)
    (hp : parseInt (promptText answer) = some ((k : Int) + 1)) :
    (((removeFrame k s).animationFramesIndices.length = 1
          ∧ (removeFrame k s).hiddenFrameExists = false) →
        s.frames.length = 2
          ∧ ∃ f, s.frames[1 - k]? = some f
              ∧ (deleteFrame answer s).frames = [f, List.replicate 256 (some "#ffffff")])
      ∧ (¬ ((removeFrame k s).animationFramesIndices.length = 1
            ∧ (removeFrame k s).hiddenFrameExists = false) →
          (deleteFrame answer s).frames.length = s.frames.length - 1
            ∧ ∀ i, (i < k → (deleteFrame answer s).frames[i]? = s.frames[i]?)
                ∧ (k ≤ i → (deleteFrame answer s).frames[i]? = s.frames[i + 1]?)) := by
  have hinv := inv_of_reachable hr
  have hcore := coreInv_removeFrame hinv.toCoreInv k hk h2
  rw [deleteFrame_accepted answer s k h2 hp hk, refreshAfterDelete_frames]
  constructor
  · intro hc
    obtain ⟨hf, _, _⟩ := restoreHiddenFrame_of_restore hcore hc
    have hl : s.frames.length = 2 := by
      have h1 := hc.1
      rw [hcore.indices_eq, List.length_range, removeFrame_frames,
        List.length_eraseIdx_of_lt hk] at h1
      omega
    refine ⟨hl, ?_⟩
    rw [hf, removeFrame_frames]
    obtain ⟨a, b, hab⟩ := List.length_eq_two.mp hl
    rw [hab]
    rw [hl] at hk
    rcases (by omega : k = 0 ∨ k = 1) with h0 | h1
    · subst h0; exact ⟨b, rfl, rfl⟩
    · subst h1; exact ⟨a, rfl, rfl⟩
  · intro hc
    rw [restoreHiddenFrame_of_keep hc, removeFrame_frames]
    refine ⟨List.length_eraseIdx_of_lt hk, ?_⟩
    intro i
    exact ⟨fun hi => List.getElem?_eraseIdx_of_lt _ _ _ hi,
      fun hi => List.getElem?_eraseIdx_of_ge _ _ _ hi⟩

/-- Witness of C5: two real frames, answer `1` (index 0): the hidden frame is put
back behind the surviving second frame. -/
theorem deleteFrame_store_witness :
    (addFrame start).frames.length = 2
      ∧ ∃ f, (addFrame start).frames[1 - 0]? = some f
          ∧ (deleteFrame (some "1") (addFrame start)).frames
              = [f, List.replicate 256 (some "#ffffff")] :=
  (deleteFrame_store (addFrame start) (some "1") 0 (Reachable.addFrame Reachable.start)
    (by decide) (by decide) rfl).1 ⟨rfl, rfl⟩

/-! ## Painting -/

/-- C6: in every reachable session that is not playing, clicking grid pixel `p < 256`
sets pixel `p` of the visible frame to the selected colour, keeps every other pixel of
that frame and every other frame, and keeps the sequence, the hidden-frame flag and
the visible index; while playing, the click changes nothing. -/
theorem pixelClick_postcondition (s : Session) (p : Nat) (hr : Reachable s) (hp : p < 256) :
    (s.isPlaying = false →
        (∃ f g, s.frames[s.visibleFrameIndex]? = some f
            ∧ (pixelClick p s).frames[s.visibleFrameIndex]? = some g
            ∧ g[p]? = some (some s.selectedColor)
            ∧ ∀ q, q ≠ p → g[q]? = f[q]?)
          ∧ (∀ j, j ≠ s.visibleFrameIndex → (pixelClick p s).frames[j]? = s.frames[j]?)
          ∧ (pixelClick p s).frames.length = s.frames.length
          ∧ (pixelClick p s).animationFramesIndices = s.animationFramesIndices
          ∧ (pixelClick p s).hiddenFrameExists = s.hiddenFrameExists
          ∧ (pixelClick p s).visibleFrameIndex = s.visibleFrameIndex)
      ∧ (s.isPlaying = true → pixelClick p s = s) := by
  have hinv := inv_of_reachable hr
  constructor
  · intro hplay
    have hv := hinv.visible_lt
    have hget : s.frames[s.visibleFrameIndex]? = some (s.frames[s.visibleFrameIndex]) :=
      List.getElem?_eq_getElem hv
    have h256 : (s.frames[s.visibleFrameIndex]).length = 256 :=
      hinv.frame_len _ (List.getElem_mem hv)
    have hfr := pixelClick_frames p s _ hplay hget
    have hlt : p < (s.frames[s.visibleFrameIndex]).length := by omega
    have hassign : assignAt (s.frames[s.visibleFrameIndex]) p (some s.selectedColor)
        = (s.frames[s.visibleFrameIndex]).set p (some s.selectedColor) := by
      unfold assignAt; rw [if_pos hlt]
    refine ⟨⟨s.frames[s.visibleFrameIndex],
        assignAt (s.frames[s.visibleFrameIndex]) p (some s.selectedColor),
        hget, ?_, ?_, ?_⟩, ?_, pixelClick_frames_length p s,
      pixelClick_indices p s, pixelClick_hidden p s, pixelClick_visible p s⟩
    · rw [hfr, List.getElem?_set_self hv]
    · rw [hassign, List.getElem?_set_self hlt]
    · intro q hq
      rw [hassign, List.getElem?_set_ne (Ne.symm hq)]
    · intro j hj
      rw [hfr, List.getElem?_set_ne (Ne.symm hj)]
  · intro hplay
    unfold pixelClick
    rw [if_pos hplay]

/-- Witness of C6: pixel 5 of the freshly loaded session, which is not playing. -/
theorem pixelClick_postcondition_witness :
    (∃ f g, start.frames[start.visibleFrameIndex]? = some f
        ∧ (pixelClick 5 start).frames[start.visibleFrameIndex]? = some g
        ∧ g[5]? = some (some start.selectedColor)
        ∧ ∀ q, q ≠ 5 → g[q]? = f[q]?)
      ∧ (∀ j, j ≠ start.visibleFrameIndex → (pixelClick 5 start).frames[j]? = start.frames[j]?)
      ∧ (pixelClick 5 start).frames.length = start.frames.length
      ∧ (pixelClick 5 start).animationFramesIndices = start.animationFramesIndices
      ∧ (pixelClick 5 start).hiddenFrameExists = start.hiddenFrameExists
      ∧ (pixelClick 5 start).visibleFrameIndex = start.visibleFrameIndex :=
  (pixelClick_postcondition start 5 Reachable.start (by decide)).1 rfl

/-! ## `addFrame` -/

/-- C7: in every reachable session `addFrame` keeps the real frames in content and
order, appends one all-white 256-pixel frame as the last store entry, appends the index
of that frame (store length minus one) as the last sequence entry, makes it the
visible index and clears the hidden-frame flag; two `addFrame` calls after loading give
a store of three frames, no hidden frame, and the sequence `[0, 1, 2]`. -/
theorem addFrame_postcondition (s : Session) (hr : Reachable s) :
    (addFrame s).frames = realFrames s ++ [List.replicate 256 (some "#ffffff")]
      ∧ (addFrame s).animationFramesIndices
          = (if s.hiddenFrameExists then s.animationFramesIndices.filter (fun i => i ≠ 1)
              else s.animationFramesIndices) ++ [(addFrame s).frames.length - 1]
      ∧ (addFrame s).visibleFrameIndex = (addFrame s).frames.length - 1
      ∧ (addFrame s).hiddenFrameExists = false
      ∧ (addFrame (addFrame start)).frames = [blankFrame, blankFrame, blankFrame]
      ∧ (addFrame (addFrame start)).hiddenFrameExists = false
      ∧ (addFrame (addFrame start)).animationFramesIndices = [0, 1, 2] := by
  have hinv := inv_of_reachable hr
  have hlen : (addFrame s).frames.length - 1 = (realFrames s).length := by
    rw [addFrame_frames]; simp
  refine ⟨addFrame_frames s, ?_, ?_, addFrame_hidden s, rfl, rfl, rfl⟩
  · rw [hlen]; exact addFrame_indices s
  · rw [hlen]; exact addFrame_visible hinv.toCoreInv

/-- Witness of C7: the session left by deleting the first of two frames. -/
theorem addFrame_postcondition_witness :
    (addFrame (deleteFrame (some "1") start)).frames
        = realFrames (deleteFrame (some "1") start) ++ [List.replicate 256 (some "#ffffff")]
      ∧ (addFrame (deleteFrame (some "1") start)).visibleFrameIndex
          = (addFrame (deleteFrame (some "1") start)).frames.length - 1
      ∧ (addFrame (deleteFrame (some "1") start)).hiddenFrameExists = false :=
  have h := addFrame_postcondition (deleteFrame (some "1") start)
    (Reachable.deleteFrame (some "1") Reachable.start)
  ⟨h.1, h.2.2.1, h.2.2.2.1⟩

/-! ## Rejected deletes -/

/-- C8: for every session, `deleteFrame` leaves the whole session as it is when the
answer does not parse to an integer, or its zero-based index is negative or not below
the store length, or the store holds at most one frame; and it changes the session
only when the store holds at least two frames and the index is in bounds. -/
theorem deleteFrame_rejected (s : Session) (answer : Option String) :
    ((parseInt (promptText answer) = none
          ∨ (∃ n, parseInt (promptText answer) = some n
                ∧ (n - 1 < 0 ∨ (s.frames.length : Int) ≤ n - 1))
          ∨ s.frames.length ≤ 1) →
        deleteFrame answer s = s)
      ∧ (deleteFrame answer s ≠ s →
          2 ≤ s.frames.length
            ∧ ∃ n, parseInt (promptText answer) = some n
                ∧ 0 ≤ n - 1 ∧ n - 1 < (s.frames.length : Int)) := by
  constructor
  · intro h
    by_cases h1 : s.frames.length ≤ 1
    · unfold deleteFrame; rw [if_pos h1]
    · rcases h with hp | ⟨n, hp, hn⟩ | hl
      · unfold deleteFrame; rw [if_neg h1]; simp only [hp]
      · have hin : n - 1 < 0 ∨ n - 1 ≥ (s.frames.length : Int) := by omega
        unfold deleteFrame; rw [if_neg h1]; simp only [hp]; rw [if_pos hin]
      · exact absurd hl h1
  · intro hne
    rcases deleteFrame_cases answer s with he | ⟨k, h2, hk, hp, _⟩
    · exact absurd he hne
    · exact ⟨h2, (k : Int) + 1, hp, by omega, by omega⟩

/-- Witness of C8: the answer `7` on the two stored frames of the loaded session. -/
theorem deleteFrame_rejected_witness : deleteFrame (some "7") start = start :=
  (deleteFrame_rejected start (some "7")).1 (Or.inr (Or.inl ⟨7, rfl, Or.inr (by decide)⟩))

/-! ## Non-empty store and sequence -/

/-- C9: in every reachable session the store and the animation sequence are not empty,
so the modulus `animationFramesIndices.length` of the cursor advance is not zero. -/
theorem store_and_sequence_nonempty (s : Session) (hr : Reachable s) :
    s.frames ≠ [] ∧ s.animationFramesIndices ≠ [] ∧ s.animationFramesIndices.length ≠ 0 := by
  have hinv := inv_of_reachable hr
  have h1 := hinv.frames_pos
  have h2 : s.animationFramesIndices.length = s.frames.length := by
    rw [hinv.indices_eq, List.length_range]
  refine ⟨?_, ?_, by omega⟩
  · intro h; rw [h] at h1; simp at h1
  · intro h; rw [h] at h2; simp at h2; omega

/-- Witness of C9: the session left by deleting the first of the two stored frames. -/
theorem store_and_sequence_nonempty_witness :
    (deleteFrame (some "1") start).frames ≠ []
      ∧ (deleteFrame (some "1") start).animationFramesIndices ≠ []
      ∧ (deleteFrame (some "1") start).animationFramesIndices.length ≠ 0 :=
  store_and_sequence_nonempty (deleteFrame (some "1") start)
    (Reachable.deleteFrame (some "1") Reachable.start)

/-! ## Frame duration -/

/-- C10: the duration used by `playAnimation` is 500 when the text of the duration
input does not parse to an integer or parses to an integer below 100, and is the parsed
integer when that is at least 100; so it is always at least 100, and the per-pixel
interval is the duration divided by 256. -/
theorem duration_default (value : String) :
    (parseInt value = none → duration value = 500)
      ∧ (∀ n, parseInt value = some n → n < 100 → duration value = 500)
      ∧ (∀ n, parseInt value = some n → 100 ≤ n → duration value = n)
      ∧ 100 ≤ duration value
      ∧ pixelInterval value = (duration value : ℚ) / 256 := by
  refine ⟨?_, ?_, ?_, ?_, rfl⟩
  · intro h; unfold duration; rw [h]
  · intro n h hn; unfold duration; rw [h]; exact if_pos hn
  · intro n h hn; unfold duration; rw [h]; exact if_neg (by omega)
  · unfold duration
    cases parseInt value with
    | none => decide
    | some d =>
      by_cases hd : d < 100
      · simp only [hd, if_true]; decide
      · simp only [hd, if_false]; omega

/-- Witness of C10: the texts `300`, `99` and `fast`. -/
theorem duration_default_witness :
    duration "300" = 300 ∧ duration "99" = 500 ∧ duration "fast" = 500 :=
  ⟨(duration_default "300").2.2.1 300 rfl (by decide),
    (duration_default "99").2.1 99 rfl (by decide),
    (duration_default "fast").1 rfl⟩

/-! ## The playback chain -/

theorem fillNextPixel_mid (call : Nat) (r : Player) (cur : Cursor) (frameIndex : Nat)
    (frame : Frame) (hplay : r.session.isPlaying = true) (hcur : r.calls[call]? = some cur)
    (hidx : r.session.animationFramesIndices[cur.frameIdxInArray]? = some frameIndex)
    (hfr : r.session.frames[frameIndex]? = some frame) (hlen : frame.length = 256)
    (hx : cur.pixelIndex + 1 < 256) :
    fillNextPixel call r
      = ({ r with calls := r.calls.set call { cur with pixelIndex := cur.pixelIndex + 1 } },
          some (cur.pixelIndex, (frame[cur.pixelIndex]?).join)) := by
  have h1 : ¬ cur.pixelIndex ≥ 256 := by omega
  have h2 : ¬ cur.pixelIndex + 1 ≥ frame.length := by omega
  unfold fillNextPixel
  simp only [hplay, hcur, hidx, hfr, h1, h2, if_false, Bool.true_eq_false]

theorem fillNextPixel_end (call : Nat) (r : Player) (cur : Cursor) (frameIndex : Nat)
    (frame : Frame) (hplay : r.session.isPlaying = true) (hcur : r.calls[call]? = some cur)
    (hidx : r.session.animationFramesIndices[cur.frameIdxInArray]? = some frameIndex)
    (hfr : r.session.frames[frameIndex]? = some frame) (hlen : frame.length = 256)
    (hx : cur.pixelIndex = 255) :
    fillNextPixel call r
      = ({ clearInterval r.playInterval
              { r with
                calls := r.calls.set call
                  { cur with
                    pixelIndex := 0
                    frameIdxInArray :=
                      (cur.frameIdxInArray + 1) % r.session.animationFramesIndices.length } } with
            timeouts :=
              (clearInterval r.playInterval
                { r with
                  calls := r.calls.set call
                    { cur with
                      pixelIndex := 0
                      frameIdxInArray :=
                        (cur.frameIdxInArray + 1)
                          % r.session.animationFramesIndices.length } }).timeouts
                ++ [{ handle := r.nextHandle, call := call }]
            nextHandle := r.nextHandle + 1 },
          some (cur.pixelIndex, (frame[cur.pixelIndex]?).join)) := by
  have h1 : ¬ cur.pixelIndex ≥ 256 := by omega
  have h2 : cur.pixelIndex + 1 ≥ frame.length := by omega
  unfold fillNextPixel
  simp only [hplay, hcur, hidx, hfr, h1, h2, if_false, if_true, Bool.true_eq_false]
  cases hp : r.playInterval <;> rfl

theorem revealTick_armed (r : Player) (h c : Nat)
    (hr : r.intervals = [{ handle := h, call := c }]) :
    revealTick r = fillNextPixel c r := by
  have h1 : resumeHold r = r := by
    unfold resumeHold; rw [hr]
  unfold revealTick
  rw [h1, hr]
  simp only [intervalTick, hr, List.find?_cons_of_pos, decide_True]

theorem revealTick_hold (r : Player) (h c : Nat) (hi : r.intervals = [])
    (ht : r.timeouts = [{ handle := h, call := c }]) (hplay : r.session.isPlaying = true) :
    revealTick r = fillNextPixel c (armInterval c { r with timeouts := [] }) := by
  have h1 : resumeHold r = armInterval c { r with timeouts := [] } := by
    unfold resumeHold
    rw [hi, ht]
    simp only [timeoutFire, ht, List.find?_cons_of_pos, decide_True, hplay, if_true]
    simp [hi]
  unfold revealTick
  rw [h1]
  simp only [armInterval, hi, List.nil_append, intervalTick, List.find?_cons_of_pos,
    decide_True]

theorem playAnimation_eq_chainState (p : Player) (value : String)
    (hs : p.session.isPlaying = false) (hi : p.intervals = []) (ht : p.timeouts = []) :
    playAnimation value p = chainState p (duration value) 0 := by
  unfold playAnimation chainState
  simp only [hs, Bool.false_eq_true, if_false]
  cases hp : p.playInterval <;>
    simp [clearInterval, armInterval, hi, ht]

theorem chainState_step (p : Player) (d : Int) (n frameIndex : Nat) (frame : Frame)
    (hidx : p.session.animationFramesIndices[
        (n / 256) % p.session.animationFramesIndices.length]? = some frameIndex)
    (hfr : p.session.frames[frameIndex]? = some frame) (hlen : frame.length = 256) :
    revealTick (chainState p d n)
      = (chainState p d (n + 1), some (n % 256, (frame[n % 256]?).join)) := by
  by_cases hhold : n % 256 = 0 ∧ 0 < n
  · have hn1 : ¬ ((n + 1) % 256 = 0 ∧ 0 < n + 1) := by omega
    have hq : (n + 1) / 256 = n / 256 := by omega
    have hx : (n + 1) % 256 = 1 := by omega
    have hx0 : n % 256 = 0 := hhold.1
    have hH : chainState p d n
        = { session := { p.session with isPlaying := true }
            playInterval := some (p.nextHandle + 2 * (n / 256) - 2)
            nextHandle := p.nextHandle + 2 * (n / 256)
            calls := p.calls ++ [{ duration := d
                                   frameIdxInArray :=
                                     (n / 256) % p.session.animationFramesIndices.length
                                   pixelIndex := n % 256 }]
            intervals := []
            timeouts := [{ handle := p.nextHandle + 2 * (n / 256) - 1
                           call := p.calls.length }] } := by
      unfold chainState; rw [if_pos hhold]
    have hA : chainState p d (n + 1)
        = { session := { p.session with isPlaying := true }
            playInterval := some (p.nextHandle + 2 * (n / 256))
            nextHandle := p.nextHandle + 2 * (n / 256) + 1
            calls := p.calls ++ [{ duration := d
                                   frameIdxInArray :=
                                     (n / 256) % p.session.animationFramesIndices.length
                                   pixelIndex := 1 }]
            intervals := [{ handle := p.nextHandle + 2 * (n / 256), call := p.calls.length }]
            timeouts := [] } := by
      unfold chainState; rw [if_neg hn1, hq, hx]
    rw [hH, hA, revealTick_hold _ _ _ rfl rfl rfl]
    refine Eq.trans (fillNextPixel_mid _ _
      { duration := d
        frameIdxInArray := (n / 256) % p.session.animationFramesIndices.length
        pixelIndex := n % 256 } frameIndex frame ?_ ?_ ?_ ?_ hlen ?_) ?_
    · rfl
    · exact List.getElem?_concat_length _ _
    · exact hidx
    · exact hfr
    · show n % 256 + 1 < 256; omega
    · simp [armInterval, hx0]
  · by_cases hend : n % 256 = 255
    · have hn1 : (n + 1) % 256 = 0 ∧ 0 < n + 1 := by omega
      have hq : (n + 1) / 256 = n / 256 + 1 := by omega
      have hA : chainState p d n
          = { session := { p.session with isPlaying := true }
              playInterval := some (p.nextHandle + 2 * (n / 256))
              nextHandle := p.nextHandle + 2 * (n / 256) + 1
              calls := p.calls ++ [{ duration := d
                                     frameIdxInArray :=
                                       (n / 256) % p.session.animationFramesIndices.length
                                     pixelIndex := n % 256 }]
              intervals := [{ handle := p.nextHandle + 2 * (n / 256), call := p.calls.length }]
              timeouts := [] } := by
        unfold chainState; rw [if_neg hhold]
      have hH : chainState p d (n + 1)
          = { session := { p.session with isPlaying := true }
              playInterval := some (p.nextHandle + 2 * (n / 256))
              nextHandle := p.nextHandle + 2 * (n / 256) + 2
              calls := p.calls ++ [{ duration := d
                                     frameIdxInArray :=
                                       (n / 256 + 1) % p.session.animationFramesIndices.length
                                     pixelIndex := 0 }]
              intervals := []
              timeouts := [{ handle := p.nextHandle + 2 * (n / 256) + 1
                             call := p.calls.length }] } := by
        unfold chainState; rw [if_pos hn1, hq, hn1.1]
        have e1 : p.nextHandle + 2 * (n / 256 + 1) - 2 = p.nextHandle + 2 * (n / 256) := by
          omega
        have e2 : p.nextHandle + 2 * (n / 256 + 1) = p.nextHandle + 2 * (n / 256) + 2 := by
          omega
        have e3 : p.nextHandle + 2 * (n / 256 + 1) - 1 = p.nextHandle + 2 * (n / 256) + 1 := by
          omega
        rw [e1, e3, e2]
      rw [hA, hH, revealTick_armed _ _ _ rfl]
      refine Eq.trans (fillNextPixel_end _ _
        { duration := d
          frameIdxInArray := (n / 256) % p.session.animationFramesIndices.length
          pixelIndex := n % 256 } frameIndex frame ?_ ?_ ?_ ?_ hlen ?_) ?_
      · rfl
      · exact List.getElem?_concat_length _ _
      · exact hidx
      · exact hfr
      · exact hend
      · simp [clearInterval]
    · have hn1 : ¬ ((n + 1) % 256 = 0 ∧ 0 < n + 1) := by omega
      have hq : (n + 1) / 256 = n / 256 := by omega
      have hx : (n + 1) % 256 = n % 256 + 1 := by omega
      have hA : chainState p d n
          = { session := { p.session with isPlaying := true }
              playInterval := some (p.nextHandle + 2 * (n / 256))
              nextHandle := p.nextHandle + 2 * (n / 256) + 1
              calls := p.calls ++ [{ duration := d
                                     frameIdxInArray :=
                                       (n / 256) % p.session.animationFramesIndices.length
                                     pixelIndex := n % 256 }]
              intervals := [{ handle := p.nextHandle + 2 * (n / 256), call := p.calls.length }]
              timeouts := [] } := by
        unfold chainState; rw [if_neg hhold]
      have hB : chainState p d (n + 1)
          = { session := { p.session with isPlaying := true }
              playInterval := some (p.nextHandle + 2 * (n / 256))
              nextHandle := p.nextHandle + 2 * (n / 256) + 1
              calls := p.calls ++ [{ duration := d
                                     frameIdxInArray :=
                                       (n / 256) % p.session.animationFramesIndices.length
                                     pixelIndex := n % 256 + 1 }]
              intervals := [{ handle := p.nextHandle + 2 * (n / 256), call := p.calls.length }]
              timeouts := [] } := by
        unfold chainState; rw [if_neg hn1, hq, hx]
      rw [hA, hB, revealTick_armed _ _ _ rfl]
      refine Eq.trans (fillNextPixel_mid _ _
        { duration := d
          frameIdxInArray := (n / 256) % p.session.animationFramesIndices.length
          pixelIndex := n % 256 } frameIndex frame ?_ ?_ ?_ ?_ hlen ?_) ?_
      · rfl
      · exact List.getElem?_concat_length _ _
      · exact hidx
      · exact hfr
      · show n % 256 + 1 < 256; omega
      · simp

/-- In a chain over a non-empty sequence of valid indices, the frame lookup of the
cursor position succeeds. -/
theorem chain_lookup (p : Player) (n : Nat)
    (hL : 1 ≤ p.session.animationFramesIndices.length)
    (hv : ∀ i ∈ p.session.animationFramesIndices, i < p.session.frames.length) :
    ∃ frameIndex frame,
      p.session.animationFramesIndices[
          (n / 256) % p.session.animationFramesIndices.length]? = some frameIndex
        ∧ p.session.frames[frameIndex]? = some frame := by
  have hlt : (n / 256) % p.session.animationFramesIndices.length
      < p.session.animationFramesIndices.length := Nat.mod_lt _ (by omega)
  have hmem := List.getElem_mem hlt
  have hfi := hv _ hmem
  exact ⟨_, _, List.getElem?_eq_getElem hlt, List.getElem?_eq_getElem hfi⟩

theorem revealTicks_chainState (p : Player) (d : Int)
    (hL : 1 ≤ p.session.animationFramesIndices.length)
    (h256 : ∀ f ∈ p.session.frames, f.length = 256)
    (hv : ∀ i ∈ p.session.animationFramesIndices, i < p.session.frames.length) :
    ∀ n, revealTicks n (chainState p d 0) = chainState p d n := by
  intro n
  induction n with
  | zero => rfl
  | succ n ih =>
    obtain ⟨frameIndex, frame, hidx, hfr⟩ := chain_lookup p n hL hv
    have hlen := h256 frame (List.getElem?_mem hfr)
    show (revealTick (revealTicks n (chainState p d 0))).1 = chainState p d (n + 1)
    rw [ih, chainState_step p d n frameIndex frame hidx hfr hlen]

theorem revealWrite_chainState (p : Player) (d : Int) (n frameIndex : Nat) (frame : Frame)
    (hL : 1 ≤ p.session.animationFramesIndices.length)
    (h256 : ∀ f ∈ p.session.frames, f.length = 256)
    (hv : ∀ i ∈ p.session.animationFramesIndices, i < p.session.frames.length)
    (hidx : p.session.animationFramesIndices[
        (n / 256) % p.session.animationFramesIndices.length]? = some frameIndex)
    (hfr : p.session.frames[frameIndex]? = some frame) :
    revealWrite n (chainState p d 0) = some (n % 256, (frame[n % 256]?).join) := by
  have hlen := h256 frame (List.getElem?_mem hfr)
  unfold revealWrite
  rw [revealTicks_chainState p d hL h256 hv n, chainState_step p d n frameIndex frame hidx hfr hlen]

theorem chainState_cursor (p : Player) (d : Int) (n : Nat) :
    (chainState p d n).calls[p.calls.length]?
      = some { duration := d
               frameIdxInArray := (n / 256) % p.session.animationFramesIndices.length
               pixelIndex := n % 256 } := by
  unfold chainState
  split <;> exact List.getElem?_concat_length _ _

theorem chainState_session (p : Player) (d : Int) (n : Nat) :
    (chainState p d n).session = { p.session with isPlaying := true } := by
  unfold chainState
  split <;> rfl

theorem reachable_revealTick {p : Player} (h : PlayerReachable p) :
    PlayerReachable (revealTick p).1 := by
  have hr : PlayerReachable (resumeHold p) := by
    unfold resumeHold
    split
    · exact PlayerReachable.timeoutFire _ h
    · exact h
  unfold revealTick
  split
  · exact PlayerReachable.intervalTick _ hr
  · exact hr

theorem reachable_revealTicks {p : Player} (h : PlayerReachable p) (n : Nat) :
    PlayerReachable (revealTicks n p) := by
  induction n with
  | zero => exact h
  | succ n ih => exact reachable_revealTick ih

theorem indices_valid_of_inv {s : Session} (h : Inv s) :
    ∀ i ∈ s.animationFramesIndices, i < s.frames.length := by
  intro i hi
  rw [h.indices_eq] at hi
  exact List.mem_range.mp hi

/-! ## Playback cursor -/

/-- The cursor arithmetic of a single chain: playback started (cursor `(0, 0)`) on a
page with no active timer, a sequence of length `L ≥ 1` whose entries are store
indices, and frames of 256 pixels: reveal
tick number `n` writes to grid cell `n mod 256` pixel `n mod 256` of the frame
`animationFramesIndices[(n div 256) mod L]`; after `n` ticks the cursor is
`((n div 256) mod L, n mod 256)` and store and sequence are as they were; after 256
ticks the sequence position is `1 mod L`, after `256 * L` ticks the cursor is `(0, 0)`. -/
theorem playback_cursor_without_timers (p : Player) (value : String) (n : Nat)
    (hs : p.session.isPlaying = false) (hi : p.intervals = []) (ht : p.timeouts = [])
    (hL : 1 ≤ p.session.animationFramesIndices.length)
    (h256 : ∀ f ∈ p.session.frames, f.length = 256)
    (hv : ∀ i ∈ p.session.animationFramesIndices, i < p.session.frames.length) :
    (∃ frameIndex frame px,
        p.session.animationFramesIndices[
            (n / 256) % p.session.animationFramesIndices.length]? = some frameIndex
          ∧ p.session.frames[frameIndex]? = some frame
          ∧ frame[n % 256]? = some px
          ∧ revealWrite n (playAnimation value p) = some (n % 256, px))
      ∧ (revealTicks n (playAnimation value p)).calls[p.calls.length]?
          = some { duration := duration value
                   frameIdxInArray := (n / 256) % p.session.animationFramesIndices.length
                   pixelIndex := n % 256 }
      ∧ (revealTicks n (playAnimation value p)).session.frames = p.session.frames
      ∧ (revealTicks n (playAnimation value p)).session.animationFramesIndices
          = p.session.animationFramesIndices
      ∧ (revealTicks 256 (playAnimation value p)).calls[p.calls.length]?
          = some { duration := duration value
                   frameIdxInArray := 1 % p.session.animationFramesIndices.length
                   pixelIndex := 0 }
      ∧ (revealTicks (256 * p.session.animationFramesIndices.length)
            (playAnimation value p)).calls[p.calls.length]?
          = some { duration := duration value, frameIdxInArray := 0, pixelIndex := 0 } := by
  rw [playAnimation_eq_chainState p value hs hi ht]
  simp only [revealTicks_chainState p (duration value) hL h256 hv]
  refine ⟨?_, chainState_cursor p _ n, ?_, ?_, ?_, ?_⟩
  · obtain ⟨frameIndex, frame, hidx, hfr⟩ := chain_lookup p n hL hv
    have hlen := h256 frame (List.getElem?_mem hfr)
    have hlt : n % 256 < frame.length := by omega
    refine ⟨frameIndex, frame, frame[n % 256], hidx, hfr, List.getElem?_eq_getElem hlt, ?_⟩
    rw [revealWrite_chainState p _ n frameIndex frame hL h256 hv hidx hfr,
      List.getElem?_eq_getElem hlt]
    rfl
  · rw [chainState_session]
  · rw [chainState_session]
  · rw [chainState_cursor]
  · rw [chainState_cursor]
    have h1 : 256 * p.session.animationFramesIndices.length / 256
        = p.session.animationFramesIndices.length := by omega
    have h2 : 256 * p.session.animationFramesIndices.length % 256 = 0 := by omega
    rw [h1, h2, Nat.mod_self]

/-- Three frames (sequence `[0, 1, 2]`), duration 300, no timer active before: after
the 256 ticks of the first frame the cursor is `(1, 0)`. -/
theorem playback_cursor_without_timers_example :
    (revealTicks 256 (playAnimation "300" (edit addFrame (edit addFrame loadedPage)))).calls[0]?
      = some { duration := 300, frameIdxInArray := 1, pixelIndex := 0 } :=
  (playback_cursor_without_timers (edit addFrame (edit addFrame loadedPage)) "300" 256 rfl rfl rfl
    (by decide)
    (inv_of_reachable (Reachable.addFrame (Reachable.addFrame Reachable.start))).frame_len
    (indices_valid_of_inv
      (inv_of_reachable (Reachable.addFrame (Reachable.addFrame Reachable.start))))).2.2.2.2.1

/-! ## Timer chains -/

theorem loadedPage_first_frame :
    revealTicks 256 (playAnimation "500" loadedPage) = chainState loadedPage 500 256 := by
  rw [playAnimation_eq_chainState loadedPage "500" rfl rfl rfl]
  exact revealTicks_chainState loadedPage 500 (by decide)
    (inv_of_reachable Reachable.start).frame_len
    (indices_valid_of_inv (inv_of_reachable Reachable.start)) 256

theorem threeFrames_two_frames :
    revealTicks 512 (playAnimation "500" (edit addFrame (edit addFrame loadedPage)))
      = chainState (edit addFrame (edit addFrame loadedPage)) 500 512 := by
  rw [playAnimation_eq_chainState (edit addFrame (edit addFrame loadedPage)) "500" rfl rfl rfl]
  exact revealTicks_chainState (edit addFrame (edit addFrame loadedPage)) 500 (by decide)
    (inv_of_reachable (Reachable.addFrame (Reachable.addFrame Reachable.start))).frame_len
    (indices_valid_of_inv
      (inv_of_reachable (Reachable.addFrame (Reachable.addFrame Reachable.start)))) 512

/-- C12 (the script departs from it): play, let the 256 ticks of the first frame run so
that its hold timeout (handle 2) is pending and no interval is armed, stop, play again,
then let the hold timeout fire.  `stopAnimation` leaves the timeout pending; when it
fires `isPlaying` is true again, so it arms an interval for the stopped chain next to
the interval of the new chain: two tick streams are active. -/
theorem stopped_hold_resumes_after_replay :
    PlayerReachable (timeoutFire 2 (playAnimation "500" (stopAnimation
        (revealTicks 256 (playAnimation "500" loadedPage)))))
      ∧ (revealTicks 256 (playAnimation "500" loadedPage)).intervals = []
      ∧ (revealTicks 256 (playAnimation "500" loadedPage)).timeouts
          = [{ handle := 2, call := 0 }]
      ∧ (stopAnimation (revealTicks 256 (playAnimation "500" loadedPage))).session.isPlaying
          = false
      ∧ (stopAnimation (revealTicks 256 (playAnimation "500" loadedPage))).timeouts
          = [{ handle := 2, call := 0 }]
      ∧ tickStreams (playAnimation "500" (stopAnimation
          (revealTicks 256 (playAnimation "500" loadedPage)))) = 2
      ∧ (timeoutFire 2 (playAnimation "500" (stopAnimation
          (revealTicks 256 (playAnimation "500" loadedPage))))).intervals
          = [{ handle := 3, call := 1 }, { handle := 4, call := 0 }]
      ∧ tickStreams (timeoutFire 2 (playAnimation "500" (stopAnimation
          (revealTicks 256 (playAnimation "500" loadedPage))))) = 2 := by
  refine ⟨?_, ?_⟩
  · exact PlayerReachable.timeoutFire 2 (PlayerReachable.playAnimation "500"
      (PlayerReachable.stopAnimation
        (reachable_revealTicks (PlayerReachable.playAnimation "500" PlayerReachable.loaded) 256)))
  · rw [loadedPage_first_frame]
    exact ⟨rfl, rfl, rfl, rfl, rfl, rfl, rfl⟩

/-- C13 (the script departs from it): with three frames, play and let two frames be
revealed (512 ticks: cursor at sequence position 2, hold pending), then delete frame 3
while playing.  The sequence shrinks to `[0, 1]`, the cursor stays at position 2, and
the frame lookup of the next reveal tick fails: the tick writes nothing and leaves the
cursor where it is. -/
theorem delete_while_playing_strands_cursor :
    PlayerReachable (edit (deleteFrame (some "3"))
        (revealTicks 512 (playAnimation "500" (edit addFrame (edit addFrame loadedPage)))))
      ∧ (edit (deleteFrame (some "3")) (revealTicks 512
          (playAnimation "500" (edit addFrame (edit addFrame loadedPage))))).session.isPlaying
          = true
      ∧ (edit (deleteFrame (some "3")) (revealTicks 512
          (playAnimation "500" (edit addFrame (edit addFrame loadedPage))))).timeouts
          = [{ handle := 4, call := 0 }]
      ∧ (edit (deleteFrame (some "3")) (revealTicks 512
          (playAnimation "500" (edit addFrame (edit addFrame loadedPage))))).calls
          = [{ duration := 500, frameIdxInArray := 2, pixelIndex := 0 }]
      ∧ (edit (deleteFrame (some "3")) (revealTicks 512
          (playAnimation "500"
            (edit addFrame (edit addFrame loadedPage))))).session.animationFramesIndices
          = [0, 1]
      ∧ frameLookup 0 (edit (deleteFrame (some "3")) (revealTicks 512
          (playAnimation "500" (edit addFrame (edit addFrame loadedPage))))) = none
      ∧ (revealTick (edit (deleteFrame (some "3")) (revealTicks 512
          (playAnimation "500" (edit addFrame (edit addFrame loadedPage)))))).2 = none
      ∧ (revealTick (edit (deleteFrame (some "3")) (revealTicks 512
          (playAnimation "500" (edit addFrame (edit addFrame loadedPage)))))).1.calls
          = [{ duration := 500, frameIdxInArray := 2, pixelIndex := 0 }] := by
  refine ⟨?_, ?_⟩
  · exact PlayerReachable.deleteFrame (some "3")
      (reachable_revealTicks (PlayerReachable.playAnimation "500"
        (PlayerReachable.addFrame (PlayerReachable.addFrame PlayerReachable.loaded))) 512)
  · rw [threeFrames_two_frames]
    exact ⟨rfl, rfl, rfl, rfl, rfl, rfl, rfl⟩

/-! ## `hexToRgb` -/

theorem hexDigitValue_bounds {u v : Nat} (h : hexDigitValue u = some v) :
    v < 16 ∧ 48 ≤ u ∧ u ≤ 102 ∧ u ≠ 88 := by
  unfold hexDigitValue at h
  split at h
  · have := Option.some.inj h; omega
  · split at h
    · have := Option.some.inj h; omega
    · split at h
      · have := Option.some.inj h; omega
      · cases h

theorem isWhiteSpaceUnit_of_digit {u : Nat} (h1 : 48 ≤ u) (h2 : u ≤ 102) :
    isWhiteSpaceUnit u = false := by
  unfold isWhiteSpaceUnit
  simp
  omega

theorem hexValue_six (a b c d e f va vb vc vd ve vf : Nat)
    (ha : hexDigitValue a = some va) (hb : hexDigitValue b = some vb)
    (hc : hexDigitValue c = some vc) (hd : hexDigitValue d = some vd)
    (he : hexDigitValue e = some ve) (hf : hexDigitValue f = some vf) :
    hexValue [a, b, c, d, e, f]
      = 1048576 * va + 65536 * vb + 4096 * vc + 256 * vd + 16 * ve + vf := by
  simp only [hexValue, List.foldl, ha, hb, hc, hd, he, hf, Option.getD_some]
  omega

theorem parseInt16_six (a b c d e f va vb vc vd ve vf : Nat)
    (ha : hexDigitValue a = some va) (hb : hexDigitValue b = some vb)
    (hc : hexDigitValue c = some vc) (hd : hexDigitValue d = some vd)
    (he : hexDigitValue e = some ve) (hf : hexDigitValue f = some vf) :
    parseInt16 [a, b, c, d, e, f] = some ((hexValue [a, b, c, d, e, f] : Nat) : Int) := by
  obtain ⟨_, a1, a2, _⟩ := hexDigitValue_bounds ha
  obtain ⟨_, b1, b2, b3⟩ := hexDigitValue_bounds hb
  have hw := isWhiteSpaceUnit_of_digit a1 a2
  have h45 : a ≠ 45 := by omega
  have h43 : a ≠ 43 := by omega
  have h120 : b ≠ 120 := by omega
  unfold parseInt16
  simp [List.dropWhile, hw, h45, h43, h120, b3, List.takeWhile, ha, hb, hc, hd, he, hf]

/-- The three channels of a parsed value below `2^24`. -/
theorem channels_of_value (n : Nat) (h : n < 16777216) :
    shiftAndMask (toInt32 (some (n : Int))) 16 = n / 65536
      ∧ shiftAndMask (toInt32 (some (n : Int))) 8 = n / 256 % 256
      ∧ shiftAndMask (toInt32 (some (n : Int))) 0 = n % 256 := by
  have h32 : toInt32 (some (n : Int)) = (n : Int) := by
    unfold toInt32
    have hm : (n : Int) % 4294967296 = n := by omega
    simp only [hm]
    rw [if_neg (by omega)]
  rw [h32]
  unfold shiftAndMask
  refine ⟨?_, ?_, ?_⟩
  · have : ((n : Int) / (2 : Int) ^ 16) % 256 = ((n / 65536 % 256 : Nat) : Int) := by
      norm_num
    rw [this, Int.toNat_ofNat]; omega
  · have : ((n : Int) / (2 : Int) ^ 8) % 256 = ((n / 256 % 256 : Nat) : Int) := by
      norm_num
    rw [this, Int.toNat_ofNat]
  · have : ((n : Int) / (2 : Int) ^ 0) % 256 = ((n % 256 : Nat) : Int) := by
      norm_num
    rw [this, Int.toNat_ofNat]

theorem codeUnits_of_small (cs : List Char) (h : ∀ c ∈ cs, c.toNat < 0x10000) :
    codeUnits (String.mk cs) = cs.map Char.toNat := by
  unfold codeUnits
  show cs.flatMap _ = cs.map Char.toNat
  induction cs with
  | nil => rfl
  | cons c cs ih =>
    have hc : c.toNat < 0x10000 := h c (List.mem_cons_self c cs)
    rw [List.flatMap_cons, List.map_cons, ih (fun x hx => h x (List.mem_cons_of_mem c hx)),
      if_pos hc]
    rfl

theorem hexDigit_small {c : Char} {v : Nat} (h : hexDigitValue c.toNat = some v) :
    c.toNat < 0x10000 ∧ c.toNat ≠ 35 := by
  obtain ⟨_, h1, h2, _⟩ := hexDigitValue_bounds h
  constructor <;> omega

theorem hexUnits_six (a b c d e f : Char) (ha : a.toNat < 0x10000 ∧ a.toNat ≠ 35)
    (hb : b.toNat < 0x10000) (hc : c.toNat < 0x10000) (hd : d.toNat < 0x10000)
    (he : e.toNat < 0x10000) (hf : f.toNat < 0x10000) :
    hexUnits (String.mk [a, b, c, d, e, f])
      = [a.toNat, b.toNat, c.toNat, d.toNat, e.toNat, f.toNat] := by
  have hs : ∀ x ∈ [a, b, c, d, e, f], x.toNat < 0x10000 := by
    intro x hx
    simp only [List.mem_cons, List.mem_singleton, List.not_mem_nil, or_false] at hx
    rcases hx with rfl | rfl | rfl | rfl | rfl | rfl
    · exact ha.1
    · exact hb
    · exact hc
    · exact hd
    · exact he
    · exact hf
  unfold hexUnits
  rw [codeUnits_of_small _ hs]
  simp [ha.2]

theorem hexUnits_hash_six (a b c d e f : Char) (ha : a.toNat < 0x10000)
    (hb : b.toNat < 0x10000) (hc : c.toNat < 0x10000) (hd : d.toNat < 0x10000)
    (he : e.toNat < 0x10000) (hf : f.toNat < 0x10000) :
    hexUnits (String.mk ['#', a, b, c, d, e, f])
      = [a.toNat, b.toNat, c.toNat, d.toNat, e.toNat, f.toNat] := by
  have hs : ∀ x ∈ ['#', a, b, c, d, e, f], x.toNat < 0x10000 := by
    intro x hx
    simp only [List.mem_cons, List.mem_singleton, List.not_mem_nil, or_false] at hx
    rcases hx with rfl | rfl | rfl | rfl | rfl | rfl | rfl
    · decide
    · exact ha
    · exact hb
    · exact hc
    · exact hd
    · exact he
    · exact hf
  have h35 : '#'.toNat = 35 := by decide
  unfold hexUnits
  rw [codeUnits_of_small _ hs]
  simp [h35]

theorem hexUnits_hash_three (a b c : Char) (ha : a.toNat < 0x10000)
    (hb : b.toNat < 0x10000) (hc : c.toNat < 0x10000) :
    hexUnits (String.mk ['#', a, b, c])
      = [a.toNat, a.toNat, b.toNat, b.toNat, c.toNat, c.toNat] := by
  have hs : ∀ x ∈ ['#', a, b, c], x.toNat < 0x10000 := by
    intro x hx
    simp only [List.mem_cons, List.mem_singleton, List.not_mem_nil, or_false] at hx
    rcases hx with rfl | rfl | rfl | rfl
    · decide
    · exact ha
    · exact hb
    · exact hc
  have h35 : '#'.toNat = 35 := by decide
  unfold hexUnits
  rw [codeUnits_of_small _ hs]
  simp [h35]

/-- The three-digit form and its six-digit expansion reach `parseInt` as the same code
units, so `hexToRgb` returns the same string for both. -/
theorem hexToRgb_short_form (a b c : Char) (ha : a.toNat < 0x10000)
    (hb : b.toNat < 0x10000) (hc : c.toNat < 0x10000) :
    hexToRgb (String.mk ['#', a, b, c]) = hexToRgb (String.mk ['#', a, a, b, b, c, c]) := by
  unfold hexToRgb
  rw [hexUnits_hash_three a b c ha hb hc, hexUnits_hash_six a a b b c c ha ha hb hb hc hc]

/-- C18: for hexadecimal digits `a b c d e f` with values `va .. vf`, `hexToRgb` of the
six-digit string, with or without a leading `#`, is the text `rgb(r, g, b)` with
`r = 16 va + vb`, `g = 16 vc + vd`, `b = 16 ve + vf`; these are at most 255 and are
`n div 65536`, `(n div 256) mod 256`, `n mod 256` for the integer `n` that `parseInt`
returns; and `hexToRgb` of the three-digit string `#abc` equals `hexToRgb` of
`#aabbcc`. -/
theorem hexToRgb_decodes (a b c d e f : Char) (va vb vc vd ve vf : Nat)
    (ha : hexDigitValue a.toNat = some va) (hb : hexDigitValue b.toNat = some vb)
    (hc : hexDigitValue c.toNat = some vc) (hd : hexDigitValue d.toNat = some vd)
    (he : hexDigitValue e.toNat = some ve) (hf : hexDigitValue f.toNat = some vf) :
    hexToRgb (String.mk [a, b, c, d, e, f])
        = "rgb(" ++ toString (16 * va + vb) ++ ", " ++ toString (16 * vc + vd) ++ ", "
            ++ toString (16 * ve + vf) ++ ")"
      ∧ hexToRgb (String.mk ['#', a, b, c, d, e, f])
          = "rgb(" ++ toString (16 * va + vb) ++ ", " ++ toString (16 * vc + vd) ++ ", "
              ++ toString (16 * ve + vf) ++ ")"
      ∧ (∃ n : Nat, parseInt16 (hexUnits (String.mk ['#', a, b, c, d, e, f])) = some (n : Int)
          ∧ 16 * va + vb = n / 65536 ∧ 16 * vc + vd = n / 256 % 256 ∧ 16 * ve + vf = n % 256)
      ∧ 16 * va + vb ≤ 255 ∧ 16 * vc + vd ≤ 255 ∧ 16 * ve + vf ≤ 255
      ∧ hexToRgb (String.mk ['#', a, b, c]) = hexToRgb (String.mk ['#', a, a, b, b, c, c]) := by
  obtain ⟨ba, _, _, _⟩ := hexDigitValue_bounds ha
  obtain ⟨bb, _, _, _⟩ := hexDigitValue_bounds hb
  obtain ⟨bc, _, _, _⟩ := hexDigitValue_bounds hc
  obtain ⟨bd, _, _, _⟩ := hexDigitValue_bounds hd
  obtain ⟨be, _, _, _⟩ := hexDigitValue_bounds he
  obtain ⟨bf, _, _, _⟩ := hexDigitValue_bounds hf
  have sa := hexDigit_small ha
  have sb := (hexDigit_small hb).1
  have sc := (hexDigit_small hc).1
  have sd := (hexDigit_small hd).1
  have se := (hexDigit_small he).1
  have sf := (hexDigit_small hf).1
  have hval := hexValue_six _ _ _ _ _ _ _ _ _ _ _ _ ha hb hc hd he hf
  have hparse := parseInt16_six _ _ _ _ _ _ _ _ _ _ _ _ ha hb hc hd he hf
  have hlt : hexValue [a.toNat, b.toNat, c.toNat, d.toNat, e.toNat, f.toNat] < 16777216 := by
    omega
  obtain ⟨hr, hg, hb8⟩ := channels_of_value _ hlt
  have hrgb : rgbString
      (shiftAndMask (toInt32 (parseInt16
        [a.toNat, b.toNat, c.toNat, d.toNat, e.toNat, f.toNat])) 16)
      (shiftAndMask (toInt32 (parseInt16
        [a.toNat, b.toNat, c.toNat, d.toNat, e.toNat, f.toNat])) 8)
      (shiftAndMask (toInt32 (parseInt16
        [a.toNat, b.toNat, c.toNat, d.toNat, e.toNat, f.toNat])) 0)
      = "rgb(" ++ toString (16 * va + vb) ++ ", " ++ toString (16 * vc + vd) ++ ", "
          ++ toString (16 * ve + vf) ++ ")" := by
    rw [hparse, hr, hg, hb8]
    have e1 : hexValue [a.toNat, b.toNat, c.toNat, d.toNat, e.toNat, f.toNat] / 65536
        = 16 * va + vb := by omega
    have e2 : hexValue [a.toNat, b.toNat, c.toNat, d.toNat, e.toNat, f.toNat] / 256 % 256
        = 16 * vc + vd := by omega
    have e3 : hexValue [a.toNat, b.toNat, c.toNat, d.toNat, e.toNat, f.toNat] % 256
        = 16 * ve + vf := by omega
    rw [e1, e2, e3]
    rfl
  refine ⟨?_, ?_, ?_, by omega, by omega, by omega, hexToRgb_short_form a b c sa.1 sb sc⟩
  · unfold hexToRgb
    rw [hexUnits_six a b c d e f sa sb sc sd se sf]
    exact hrgb
  · unfold hexToRgb
    rw [hexUnits_hash_six a b c d e f sa.1 sb sc sd se sf]
    exact hrgb
  · refine ⟨hexValue [a.toNat, b.toNat, c.toNat, d.toNat, e.toNat, f.toNat], ?_, ?_, ?_, ?_⟩
    · rw [hexUnits_hash_six a b c d e f sa.1 sb sc sd se sf]
      exact hparse
    · omega
    · omega
    · omega

/-- Witness of C18: the default colour `#e9760a`, and the short form `#e90`. -/
theorem hexToRgb_decodes_witness :
    hexToRgb "e9760a" = "rgb(233, 118, 10)"
      ∧ hexToRgb "#e9760a" = "rgb(233, 118, 10)"
      ∧ hexToRgb "#e97" = hexToRgb "#ee9977" :=
  have h := hexToRgb_decodes 'e' '9' '7' '6' '0' 'a' 14 9 7 6 0 10 rfl rfl rfl rfl rfl rfl
  ⟨h.1, h.2.1, h.2.2.2.2.2.2⟩

/-! ## Palette -/

theorem insertSwatch_eq (palette : List Swatch) (swatch : Swatch) :
    insertSwatch palette swatch
      = palette.take customColorsStartIndex ++ [swatch] ++ palette.drop customColorsStartIndex := by
  unfold insertSwatch
  split
  · rfl
  · rename_i h
    rw [List.take_of_length_le (by omega), List.drop_of_length_le (by omega)]
    simp

theorem addCustomColor_of_exists (styleColor : String → String) (hexColor : String)
    (st : List Swatch × Session)
    (h : ∃ sw ∈ st.1, sw.backgroundColor = hexToRgb hexColor) :
    addCustomColor styleColor hexColor st = st := by
  have hany : st.1.any (fun swatch => swatch.backgroundColor == hexToRgb hexColor) = true := by
    rw [List.any_eq_true]
    obtain ⟨sw, hm, he⟩ := h
    exact ⟨sw, hm, by simp [he]⟩
  unfold addCustomColor
  simp only [hany, if_true]

theorem addCustomColor_of_new (styleColor : String → String) (hexColor : String)
    (st : List Swatch × Session)
    (h : ∀ sw ∈ st.1, sw.backgroundColor ≠ hexToRgb hexColor) :
    addCustomColor styleColor hexColor st
      = (insertSwatch (st.1.map (fun el => { el with selected := false }))
            { color := hexColor, backgroundColor := styleColor hexColor, selected := true },
          { st.2 with selectedColor := hexColor }) := by
  have hany : st.1.any (fun swatch => swatch.backgroundColor == hexToRgb hexColor) = false := by
    rw [List.any_eq_false]
    intro sw hm
    simpa using h sw hm
  unfold addCustomColor
  simp only [hany, Bool.false_eq_true, if_false, createColorSwatch]

theorem filter_insertSwatch_length (q : Swatch → Bool) (palette : List Swatch)
    (swatch : Swatch) :
    ((insertSwatch palette swatch).filter q).length
      = (palette.filter q).length + (if q swatch then 1 else 0) := by
  rw [insertSwatch_eq]
  have h : (palette.filter q).length
      = ((palette.take customColorsStartIndex).filter q).length
        + ((palette.drop customColorsStartIndex).filter q).length := by
    rw [← List.length_append, ← List.filter_append, List.take_append_drop]
  rw [List.filter_append, List.filter_append, List.length_append, List.length_append, h]
  cases hq : q swatch
  · simp [List.filter, hq]
  · simp [List.filter, hq]
    omega

/-- C14: when the value read back from the style of the new swatch is the normalised
`rgb(r, g, b)` text of `h`, then after `addCustomColor(h)` a second call with a colour
`h'` of the same normalised text changes neither the palette nor the session; if the
colour was not in the palette, exactly one swatch carries it afterwards; and adding a
colour whose normalised text is already on a swatch (a default one included) changes
nothing. -/
theorem addCustomColor_deduplicates (styleColor : String → String)
    (st : List Swatch × Session) (h h' : String)
    (hstyle : styleColor h = hexToRgb h) (hsame : hexToRgb h' = hexToRgb h) :
    addCustomColor styleColor h' (addCustomColor styleColor h st)
        = addCustomColor styleColor h st
      ∧ ((∀ sw ∈ st.1, sw.backgroundColor ≠ hexToRgb h) →
          ((addCustomColor styleColor h' (addCustomColor styleColor h st)).1.filter
            (fun sw => sw.backgroundColor == hexToRgb h)).length = 1)
      ∧ ((∃ sw ∈ st.1, sw.backgroundColor = hexToRgb h) →
          addCustomColor styleColor h st = st)
      ∧ (∀ s : Session, ∀ d ∈ defaultColors, styleColor d = hexToRgb h →
          addCustomColor styleColor h (defaultPalette styleColor, s)
            = (defaultPalette styleColor, s)) := by
  have hsecond : addCustomColor styleColor h' (addCustomColor styleColor h st)
      = addCustomColor styleColor h st := by
    apply addCustomColor_of_exists
    rw [hsame]
    by_cases hex : ∃ sw ∈ st.1, sw.backgroundColor = hexToRgb h
    · rw [addCustomColor_of_exists styleColor h st hex]
      exact hex
    · have hnew : ∀ sw ∈ st.1, sw.backgroundColor ≠ hexToRgb h :=
        fun sw hm he => hex ⟨sw, hm, he⟩
      rw [addCustomColor_of_new styleColor h st hnew, insertSwatch_eq]
      exact ⟨{ color := h, backgroundColor := styleColor h, selected := true },
        by simp, hstyle⟩
  refine ⟨hsecond, ?_, addCustomColor_of_exists styleColor h st, ?_⟩
  · intro hnew
    rw [hsecond, addCustomColor_of_new styleColor h st hnew, filter_insertSwatch_length]
    have hnone : (st.1.map (fun el => ({ el with selected := false } : Swatch))).filter
        (fun sw => sw.backgroundColor == hexToRgb h) = [] := by
      rw [List.filter_eq_nil_iff]
      intro a ha
      obtain ⟨sw, hm, rfl⟩ := List.mem_map.mp ha
      simpa using hnew sw hm
    rw [hnone]
    simp [hstyle]
  · intro s d hd hdn
    apply addCustomColor_of_exists
    refine ⟨⟨d, styleColor d, decide (d = "#000000")⟩, ?_, hdn⟩
    simp only [defaultColors, List.mem_cons, List.mem_singleton, List.not_mem_nil,
      or_false] at hd
    rcases hd with rfl | rfl | rfl | rfl | rfl | rfl | rfl | rfl | rfl | rfl <;>
      simp [defaultPalette, defaultColors, createColorSwatch]

/-- Witness of C14: `#aabbcc` and then its short form `#abc`, on the default palette,
with the normalised text as the value read back from the style. -/
theorem addCustomColor_deduplicates_witness :
    addCustomColor hexToRgb "#abc" (addCustomColor hexToRgb "#aabbcc" (defaultPalette hexToRgb, start))
      = addCustomColor hexToRgb "#aabbcc" (defaultPalette hexToRgb, start) :=
  (addCustomColor_deduplicates hexToRgb (defaultPalette hexToRgb, start) "#aabbcc" "#abc"
    rfl rfl).1

/-- C15: on a palette whose colours are the ten default colours followed by the custom
colours `cs`, adding a colour `h` whose normalised text is on no swatch gives the
colours `defaultColors ++ [h] ++ cs`: the first ten swatches keep their colours, the
new swatch is at position 10, selected, before the earlier custom colours, and
`selectedColor` is `h`. -/
theorem addCustomColor_inserts (styleColor : String → String) (palette : List Swatch)
    (s : Session) (cs : List String) (h : String)
    (hpal : palette.map (fun sw => sw.color) = defaultColors ++ cs)
    (hnew : ∀ sw ∈ palette, sw.backgroundColor ≠ hexToRgb h) :
    (addCustomColor styleColor h (palette, s)).1.map (fun sw => sw.color)
        = defaultColors ++ [h] ++ cs
      ∧ ((addCustomColor styleColor h (palette, s)).1.take 10).map (fun sw => sw.color)
          = defaultColors
      ∧ (addCustomColor styleColor h (palette, s)).1[10]?
          = some { color := h, backgroundColor := styleColor h, selected := true }
      ∧ (addCustomColor styleColor h (palette, s)).2.selectedColor = h := by
  have h10 : customColorsStartIndex = 10 := rfl
  have hd10 : defaultColors.length = 10 := rfl
  have hlen : 10 ≤ palette.length := by
    have := congrArg List.length hpal
    rw [List.length_map, List.length_append, hd10] at this
    omega
  have hcolor : (palette.map (fun el => ({ el with selected := false } : Swatch))).map
      (fun sw => sw.color) = defaultColors ++ cs := by
    rw [List.map_map, ← hpal]
    rfl
  rw [addCustomColor_of_new styleColor h (palette, s) hnew, insertSwatch_eq, h10]
  dsimp only
  refine ⟨?_, ?_, ?_, rfl⟩
  · show (List.take 10 _ ++ [_] ++ List.drop 10 _).map _ = _
    rw [List.map_append, List.map_append, List.map_take, List.map_drop, hcolor,
      List.take_left' hd10, List.drop_left' hd10]
    rfl
  · show ((List.take 10 _ ++ [_] ++ List.drop 10 _).take 10).map _ = _
    have hl : (List.take 10 (palette.map
        (fun el => ({ el with selected := false } : Swatch)))).length = 10 := by
      rw [List.length_take, List.length_map]; omega
    rw [List.append_assoc, List.take_left' hl, List.map_take, hcolor, List.take_left' hd10]
  · show (List.take 10 _ ++ [_] ++ List.drop 10 _)[10]? = _
    have hl : (List.take 10 (palette.map
        (fun el => ({ el with selected := false } : Swatch)))).length = 10 := by
      rw [List.length_take, List.length_map]; omega
    rw [List.append_assoc, List.getElem?_append_right (by rw [hl]), hl]
    simp

/-- Witness of C15: `#123456` on the default palette, then `#654321`. -/
theorem addCustomColor_inserts_witness :
    (addCustomColor hexToRgb "#654321"
        (addCustomColor hexToRgb "#123456" (defaultPalette hexToRgb, start))).1.map
          (fun sw => sw.color)
      = defaultColors ++ ["#654321"] ++ ["#123456"] :=
  (addCustomColor_inserts hexToRgb
    (addCustomColor hexToRgb "#123456" (defaultPalette hexToRgb, start)).1
    (addCustomColor hexToRgb "#123456" (defaultPalette hexToRgb, start)).2
    ["#123456"] "#654321" (by decide) (by decide)).1

/-! ## The hidden frame in the editor -/

/-- C16 (the script departs from it): paint pixel 0 of frame 0, then answer `1` to the
prompt of `deleteFrame`.  The delete is accepted, the painted frame goes and the hidden
frame is the only stored frame, at index 0: it is the visible frame and has a
thumbnail while `hiddenFrameExists` is still set, and the next pixel click paints it,
so it is no longer white. -/
theorem hidden_frame_painted :
    Reachable (pixelClick 3 (deleteFrame (some "1") (pixelClick 0 start)))
      ∧ (pixelClick 0 start).frames = [assignAt blankFrame 0 (some "#000000"), blankFrame]
      ∧ (deleteFrame (some "1") (pixelClick 0 start)).frames = [blankFrame]
      ∧ (deleteFrame (some "1") (pixelClick 0 start)).frames[1]? = none
      ∧ (deleteFrame (some "1") (pixelClick 0 start)).hiddenFrameExists = true
      ∧ (deleteFrame (some "1") (pixelClick 0 start)).visibleFrameIndex = 0
      ∧ (deleteFrame (some "1") (pixelClick 0 start)).framesList = [0]
      ∧ (pixelClick 3 (deleteFrame (some "1") (pixelClick 0 start))).hiddenFrameExists = true
      ∧ (pixelClick 3 (deleteFrame (some "1") (pixelClick 0 start))).frames
          = [assignAt blankFrame 3 (some "#000000")]
      ∧ (assignAt blankFrame 3 (some "#000000"))[3]? = some (some "#000000") :=
  ⟨Reachable.pixelClick 3 (by decide)
      (Reachable.deleteFrame (some "1") (Reachable.pixelClick 0 (by decide) Reachable.start)),
    rfl, rfl, rfl, rfl, rfl, rfl, rfl, rfl, by
      unfold assignAt
      rw [if_pos (by rw [blankFrame_length]; decide),
        List.getElem?_set_self (by rw [blankFrame_length]; decide)]⟩

/-! ## Invariants of the reachable sessions -/

/-- C17: in every reachable session every stored frame has exactly 256 pixels, so the
test `pixelIndex >= frame.length` of the playback tick holds exactly when `pixelIndex`
has reached 256. -/
theorem frames_have_256_pixels (s : Session) (f : Frame) (hr : Reachable s)
    (hf : f ∈ s.frames) :
    f.length = 256 ∧ ∀ pixelIndex : Nat, pixelIndex ≥ f.length ↔ pixelIndex ≥ 256 := by
  have h := (inv_of_reachable hr).frame_len f hf
  refine ⟨h, ?_⟩
  intro pixelIndex
  rw [h]

/-- Witness of C17: the frame painted at pixel 255 in a session with three frames. -/
theorem frames_have_256_pixels_witness :
    (assignAt blankFrame 255 (some "#000000")).length = 256
      ∧ ∀ pixelIndex : Nat,
          pixelIndex ≥ (assignAt blankFrame 255 (some "#000000")).length ↔ pixelIndex ≥ 256 := by
  have hfr : (pixelClick 255 (addFrame (addFrame start))).frames
      = [blankFrame, blankFrame, assignAt blankFrame 255 (some "#000000")] := rfl
  exact frames_have_256_pixels (pixelClick 255 (addFrame (addFrame start)))
    (assignAt blankFrame 255 (some "#000000"))
    (Reachable.pixelClick 255 (by decide) (Reachable.addFrame (Reachable.addFrame Reachable.start)))
    (by rw [hfr]; simp)

/-- C19: in every reachable session the animation sequence is the list
`[0, 1, ..., frames.length - 1]`: strictly ascending, without duplicates, every entry a
store index and every store index an entry; and when `deleteFrame` puts the hidden
frame back, the sequence with index 1 appended is already sorted, so the sort changes
nothing. -/
theorem sequence_is_storage_order (s : Session) (hr : Reachable s) :
    s.animationFramesIndices = List.range s.frames.length
      ∧ s.animationFramesIndices.Pairwise (fun a b => a < b)
      ∧ s.animationFramesIndices.Nodup
      ∧ (∀ i, i ∈ s.animationFramesIndices ↔ i < s.frames.length)
      ∧ (∀ k, 2 ≤ s.frames.length → k < s.frames.length →
          (removeFrame k s).animationFramesIndices.length = 1 →
          (removeFrame k s).hiddenFrameExists = false →
          sortAscending ((removeFrame k s).animationFramesIndices ++ [1])
            = (removeFrame k s).animationFramesIndices ++ [1]) := by
  have hinv := inv_of_reachable hr
  refine ⟨hinv.indices_eq, ?_, ?_, ?_, ?_⟩
  · rw [hinv.indices_eq]; exact List.pairwise_lt_range _
  · rw [hinv.indices_eq]; exact List.nodup_range _
  · intro i; rw [hinv.indices_eq]; exact List.mem_range
  · intro k h2 hk hlen _
    have hcore := coreInv_removeFrame hinv.toCoreInv k hk h2
    have hl : (removeFrame k s).frames.length = 1 := by
      rw [hcore.indices_eq, List.length_range] at hlen
      exact hlen
    rw [hcore.indices_eq, hl]
    decide

/-- Witness of C19: the session left by deleting the second of three frames. -/
theorem sequence_is_storage_order_witness :
    (deleteFrame (some "2") (addFrame (addFrame start))).animationFramesIndices
      = List.range (deleteFrame (some "2") (addFrame (addFrame start))).frames.length :=
  (sequence_is_storage_order (deleteFrame (some "2") (addFrame (addFrame start)))
    (Reachable.deleteFrame (some "2") (Reachable.addFrame (Reachable.addFrame Reachable.start)))).1

/-- C20: in every reachable session the visible index is a store index, so the frame
written by a pixel click and the frame read by `loadFrameToGrid(visibleFrameIndex)`
exist; and an accepted delete of the visible frame sets the visible index to 0. -/
theorem visible_index_in_bounds (s : Session) (hr : Reachable s) :
    s.visibleFrameIndex < s.frames.length
      ∧ (∃ f, s.frames[s.visibleFrameIndex]? = some f)
      ∧ (∀ answer : Option String, 2 ≤ s.frames.length →
          parseInt (promptText answer) = some ((s.visibleFrameIndex : Int) + 1) →
          (deleteFrame answer s).visibleFrameIndex = 0) := by
  have hv := (inv_of_reachable hr).visible_lt
  refine ⟨hv, ⟨_, List.getElem?_eq_getElem hv⟩, ?_⟩
  intro answer h2 hp
  rw [deleteFrame_accepted answer s s.visibleFrameIndex h2 hp hv, refreshAfterDelete_visible,
    restoreHiddenFrame_visible, removeFrame_visible, if_pos rfl]

/-- Witness of C20: three frames, the third one visible, answer `3`. -/
theorem visible_index_in_bounds_witness :
    (addFrame (addFrame start)).visibleFrameIndex < (addFrame (addFrame start)).frames.length
      ∧ (deleteFrame (some "3") (addFrame (addFrame start))).visibleFrameIndex = 0 :=
  have h := visible_index_in_bounds (addFrame (addFrame start))
    (Reachable.addFrame (Reachable.addFrame Reachable.start))
  ⟨h.1, h.2.2 (some "3") (by decide) rfl⟩

/-! ## Playback restarted during a hold -/

theorem threeFrames_first_frame :
    revealTicks 256 (playAnimation "500" threeFramePage) = chainState threeFramePage 500 256 := by
  rw [playAnimation_eq_chainState threeFramePage "500" rfl rfl rfl]
  exact revealTicks_chainState threeFramePage 500 (by decide)
    (inv_of_reachable (Reachable.addFrame (Reachable.addFrame Reachable.start))).frame_len
    (indices_valid_of_inv
      (inv_of_reachable (Reachable.addFrame (Reachable.addFrame Reachable.start)))) 256

theorem replayedPage_eq :
    replayedPage
      = { session := { addFrame (addFrame start) with isPlaying := true }
          playInterval := some 3
          nextHandle := 4
          calls := [{ duration := 500, frameIdxInArray := 1, pixelIndex := 0 },
                    { duration := 500, frameIdxInArray := 0, pixelIndex := 0 }]
          intervals := [{ handle := 3, call := 1 }]
          timeouts := [{ handle := 2, call := 0 }] } := by
  unfold replayedPage
  rw [threeFrames_first_frame]
  rfl

theorem reachable_replayedPage : PlayerReachable replayedPage :=
  PlayerReachable.playAnimation "500" (PlayerReachable.stopAnimation
    (reachable_revealTicks (PlayerReachable.playAnimation "500"
      (PlayerReachable.addFrame (PlayerReachable.addFrame PlayerReachable.loaded))) 256))

theorem blankFrame_getElem? (i : Nat) (h : i < 256) : blankFrame[i]? = some white := by
  unfold blankFrame
  rw [List.getElem?_replicate, if_pos h]

theorem intervalTick_mid (handle call : Nat) (p : Player) (cur : Cursor) (frameIndex : Nat)
    (frame : Frame)
    (hfind : p.intervals.find? (fun t => t.handle = handle)
      = some { handle := handle, call := call })
    (hplay : p.session.isPlaying = true) (hcur : p.calls[call]? = some cur)
    (hidx : p.session.animationFramesIndices[cur.frameIdxInArray]? = some frameIndex)
    (hfr : p.session.frames[frameIndex]? = some frame) (hlen : frame.length = 256)
    (hx : cur.pixelIndex + 1 < 256) :
    intervalTick handle p
      = ({ p with calls := p.calls.set call { cur with pixelIndex := cur.pixelIndex + 1 } },
          some (cur.pixelIndex, (frame[cur.pixelIndex]?).join)) := by
  unfold intervalTick
  rw [hfind]
  exact fillNextPixel_mid call p cur frameIndex frame hplay hcur hidx hfr hlen hx

theorem replayedPage_tick0 :
    intervalTick 3 replayedPage
      = ({ session := { addFrame (addFrame start) with isPlaying := true }
           playInterval := some 3
           nextHandle := 4
           calls := [{ duration := 500, frameIdxInArray := 1, pixelIndex := 0 },
                     { duration := 500, frameIdxInArray := 0, pixelIndex := 1 }]
           intervals := [{ handle := 3, call := 1 }]
           timeouts := [{ handle := 2, call := 0 }] }, some (0, some "#ffffff")) := by
  rw [replayedPage_eq]
  refine Eq.trans (intervalTick_mid 3 1 _
    { duration := 500, frameIdxInArray := 0, pixelIndex := 0 } 0 blankFrame
    ?_ ?_ ?_ ?_ ?_ blankFrame_length ?_) ?_
  · rfl
  · rfl
  · rfl
  · rfl
  · rfl
  · decide
  · rw [blankFrame_getElem? _ (by decide)]
    rfl

theorem replayedPage_tick1 :
    intervalTick 3 (timeoutFire 2 (intervalTick 3 replayedPage).1)
      = ({ session := { addFrame (addFrame start) with isPlaying := true }
           playInterval := some 4
           nextHandle := 5
           calls := [{ duration := 500, frameIdxInArray := 1, pixelIndex := 0 },
                     { duration := 500, frameIdxInArray := 0, pixelIndex := 2 }]
           intervals := [{ handle := 3, call := 1 }, { handle := 4, call := 0 }]
           timeouts := [] }, some (1, some "#ffffff")) := by
  rw [replayedPage_tick0]
  refine Eq.trans (intervalTick_mid 3 1 _
    { duration := 500, frameIdxInArray := 0, pixelIndex := 1 } 0 blankFrame
    ?_ ?_ ?_ ?_ ?_ blankFrame_length ?_) ?_
  · rfl
  · rfl
  · rfl
  · rfl
  · rfl
  · decide
  · rw [blankFrame_getElem? _ (by decide)]
    rfl

theorem replayedPage_tick2 :
    intervalTick 4 (intervalTick 3 (timeoutFire 2 (intervalTick 3 replayedPage).1)).1
      = ({ session := { addFrame (addFrame start) with isPlaying := true }
           playInterval := some 4
           nextHandle := 5
           calls := [{ duration := 500, frameIdxInArray := 1, pixelIndex := 1 },
                     { duration := 500, frameIdxInArray := 0, pixelIndex := 2 }]
           intervals := [{ handle := 3, call := 1 }, { handle := 4, call := 0 }]
           timeouts := [] }, some (0, some "#ffffff")) := by
  rw [replayedPage_tick1]
  refine Eq.trans (intervalTick_mid 4 0 _
    { duration := 500, frameIdxInArray := 1, pixelIndex := 0 } 1 blankFrame
    ?_ ?_ ?_ ?_ ?_ blankFrame_length ?_) ?_
  · rfl
  · rfl
  · rfl
  · rfl
  · rfl
  · decide
  · rw [blankFrame_getElem? _ (by decide)]
    rfl

/-- C11 (the script departs from it): on the three-frame page, play, let the first frame
be revealed, stop during its hold and play again.  The page on which playback is
started the second time is not playing, its sequence `[0, 1, 2]` has length 3 and its
frames have 256 pixels, and the new closure starts at cursor `(0, 0)`.  The new
interval (handle 3) makes reveal tick 0, the hold timeout of the stopped chain
(handle 2) fires and arms interval 4 for the old closure, interval 3 makes reveal tick
1 (cell 1), and then interval 4 fires: reveal tick 2 is made by the old closure and
writes grid cell 0, not cell 2, and after these three reveal ticks the cursor of the
new closure is `(0, 2)`, not `(0, 3)`. -/
theorem replay_during_hold_breaks_cursor :
    PlayerReachable
        (intervalTick 4 (intervalTick 3 (timeoutFire 2 (intervalTick 3 replayedPage).1)).1).1
      ∧ (stopAnimation (revealTicks 256
          (playAnimation "500" threeFramePage))).session.isPlaying = false
      ∧ (stopAnimation (revealTicks 256
          (playAnimation "500" threeFramePage))).session.animationFramesIndices = [0, 1, 2]
      ∧ (stopAnimation (revealTicks 256
          (playAnimation "500" threeFramePage))).session.frames
          = [blankFrame, blankFrame, blankFrame]
      ∧ (stopAnimation (revealTicks 256
          (playAnimation "500" threeFramePage))).timeouts = [{ handle := 2, call := 0 }]
      ∧ replayedPage.calls
          = [{ duration := 500, frameIdxInArray := 1, pixelIndex := 0 },
             { duration := 500, frameIdxInArray := 0, pixelIndex := 0 }]
      ∧ replayedPage.intervals = [{ handle := 3, call := 1 }]
      ∧ (intervalTick 3 replayedPage).2 = some (0, some "#ffffff")
      ∧ (timeoutFire 2 (intervalTick 3 replayedPage).1).intervals
          = [{ handle := 3, call := 1 }, { handle := 4, call := 0 }]
      ∧ (intervalTick 3 (timeoutFire 2 (intervalTick 3 replayedPage).1)).2
          = some (1, some "#ffffff")
      ∧ (intervalTick 4
          (intervalTick 3 (timeoutFire 2 (intervalTick 3 replayedPage).1)).1).2
          = some (0, some "#ffffff")
      ∧ (intervalTick 4
          (intervalTick 3 (timeoutFire 2 (intervalTick 3 replayedPage).1)).1).1.calls
          = [{ duration := 500, frameIdxInArray := 1, pixelIndex := 1 },
             { duration := 500, frameIdxInArray := 0, pixelIndex := 2 }] := by
  refine ⟨?_, ?_, ?_⟩
  · exact PlayerReachable.intervalTick 4 (PlayerReachable.intervalTick 3
      (PlayerReachable.timeoutFire 2 (PlayerReachable.intervalTick 3 reachable_replayedPage)))
  · rw [threeFrames_first_frame]
    rfl
  · refine ⟨?_, ?_, ?_, ?_, ?_⟩
    · rw [threeFrames_first_frame]; rfl
    · rw [threeFrames_first_frame]; rfl
    · rw [threeFrames_first_frame]; rfl
    · rw [replayedPage_eq]
    · rw [replayedPage_tick2, replayedPage_tick1, replayedPage_tick0, replayedPage_eq]
      exact ⟨rfl, rfl, rfl, rfl, rfl, rfl⟩

end MiniPixel
